import Mathlib

/-!
# Verification of the groknul-bot conversation store and rollup engine

Shallow embedding of the core of the `tyulyukov/groknul-bot` repository:

* the MongoDB-backed Event Store (`src/database/models/Message.ts`),
* the Summary store (`src/database/models/Summary.ts`),
* the Memory store (`src/database/models/Memory.ts`),
* the rollup engine `ensureSummaries` and the context assembler
  `buildHistoricalContextSections` (`src/services/telegram-bot.service.ts`),
* the router / generation orchestrator `generateResponse`
  (`src/services/ai.service.ts`).

Stores are modelled as lists of documents, in insertion order, exactly as a
MongoDB collection holds them.  External capabilities (the summarization and
generation models) are parameters.  Timestamps (`Date`) are modelled as
abstract `Nat` ticks; their ISO rendering is modelled as decimal rendering,
which no claim inspects.
-/

namespace Groknul

/-- An edit snapshot (`MessageEdit` in `Message.ts`): the text that was
current immediately before the edit, the edit timestamp and a 1-based
version number. -/
structure MessageEdit where
  text : Option String
  editedAt : Nat
  version : Nat
  deriving Repr, DecidableEq

/-- A reaction record (`MessageReaction` in `Message.ts`). -/
structure MessageReaction where
  userTelegramId : Int
  emoji : Option String
  customEmojiId : Option String
  addedAt : Nat
  deriving Repr, DecidableEq

/-- A message document as stored in the `messages` collection
(`Message` in `Message.ts`).  The opaque `payload` / `forwardOrigin`
blobs are omitted: no operation reads them back. -/
structure MessageDoc where
  telegramId : Int
  chatTelegramId : Int
  userTelegramId : Int
  text : Option String
  context : Option String
  fileName : Option String
  replyToMessageTelegramId : Option Int
  replyQuoteText : Option String
  sentAt : Nat
  editDate : Option Nat
  edits : List MessageEdit
  reactions : List MessageReaction
  messageType : String
  forwardOrigin : Option String
  forwardFromUserTelegramId : Option Int
  createdAt : Nat
  updatedAt : Nat
  deriving Repr, DecidableEq

/-- A summary document (`Summary` in `Summary.ts`), keyed by
`(chatTelegramId, level, index)`. -/
structure SummaryDoc where
  chatTelegramId : Int
  level : Nat
  index : Nat
  summary : String
  startSentAt : Option Nat
  endSentAt : Option Nat
  createdAt : Nat
  updatedAt : Nat
  deriving Repr, DecidableEq

/-- A pinned-fact document (`Memory` in `Memory.ts`). -/
structure MemoryDoc where
  chatTelegramId : Int
  addedByUserTelegramId : Int
  text : String
  sourceMessageTelegramId : Option Int
  createdAt : Nat
  updatedAt : Nat
  deriving Repr, DecidableEq

/-- A user profile document (`TelegramUser` in `TelegramUser.ts`); only the
fields read by the rollup labelling and context building are modelled. -/
structure TelegramUserDoc where
  telegramId : Int
  username : Option String
  firstName : Option String
  lastName : Option String
  isBot : Bool
  isPremium : Option Bool
  languageCode : Option String
  deriving Repr, DecidableEq

/-! ## List machinery shared by the store models -/

/-- Insert into a list sorted by `le` (models MongoDB `$sort`; only the
length and the ordering key matter to any claim). -/
def orderedInsert (le : α → α → Bool) (x : α) : List α → List α
  | [] => [x]
  | y :: ys => if le x y then x :: y :: ys else y :: orderedInsert le x ys

/-- Insertion sort by `le`. -/
def sortBy (le : α → α → Bool) : List α → List α
  | [] => []
  | x :: xs => orderedInsert le x (sortBy le xs)

theorem length_orderedInsert (le : α → α → Bool) (x : α) (l : List α) :
    (orderedInsert le x l).length = l.length + 1 := by
  induction l with
  | nil => rfl
  | cons y ys ih =>
    simp only [orderedInsert]
    by_cases h : le x y = true
    · simp [h]
    · simp [h, ih]

theorem length_sortBy (le : α → α → Bool) (l : List α) :
    (sortBy le l).length = l.length := by
  induction l with
  | nil => rfl
  | cons x xs ih => simp [sortBy, length_orderedInsert, ih]

/-- JavaScript `String.prototype.trim()`: strip whitespace from both ends
(an executable structural model of the trim the source calls). -/
def jsTrim (s : String) : String :=
  ⟨((s.data.dropWhile Char.isWhitespace).reverse.dropWhile
    Char.isWhitespace).reverse⟩

/-- Replace the first element satisfying `p` by `f` applied to it
(models MongoDB `updateOne`: at most one document is modified). -/
def updateFirst (p : α → Bool) (f : α → α) : List α → List α
  | [] => []
  | x :: xs => if p x then f x :: xs else x :: updateFirst p f xs

theorem updateFirst_of_not_mem (p : α → Bool) (f : α → α) (l : List α)
    (h : ∀ x ∈ l, p x = false) : updateFirst p f l = l := by
  induction l with
  | nil => rfl
  | cons x xs ih =>
    have hx : p x = false := h x (by simp)
    simp only [updateFirst, hx, Bool.false_eq_true, if_false]
    rw [ih (fun y hy => h y (by simp [hy]))]

theorem length_updateFirst (p : α → Bool) (f : α → α) (l : List α) :
    (updateFirst p f l).length = l.length := by
  induction l with
  | nil => rfl
  | cons x xs ih =>
    simp only [updateFirst]
    by_cases h : p x = true
    · simp [h]
    · simp [h, ih]

/-! ## Summary store (`SummaryModel`, `Summary.ts`) -/

/-- The `(chatTelegramId, level, index)` key filter used by
`SummaryModel.exists` / `upsertSummary`. -/
def summaryKey (chat : Int) (level index : Nat) (s : SummaryDoc) : Bool :=
  s.chatTelegramId == chat && s.level == level && s.index == index

/-- `SummaryModel.getCount`: `countDocuments({ chatTelegramId, level })`. -/
def getCount (sums : List SummaryDoc) (chat : Int) (level : Nat) : Nat :=
  (sums.filter (fun s => s.chatTelegramId == chat && s.level == level)).length

/-- `SummaryModel.getByLevelAscending`:
`find({ chatTelegramId, level }).sort({ index: 1 })`. -/
def getByLevelAscending (sums : List SummaryDoc) (chat : Int) (level : Nat) :
    List SummaryDoc :=
  sortBy (fun a b => a.index ≤ b.index)
    (sums.filter (fun s => s.chatTelegramId == chat && s.level == level))

/-- `SummaryModel.getRangeByLevelAscending`: the ascending level slice with
`skip`/`limit`. -/
def getRangeByLevelAscending (sums : List SummaryDoc) (chat : Int)
    (level : Nat) (skip limit : Nat) : List SummaryDoc :=
  ((getByLevelAscending sums chat level).drop skip).take limit

/-- The argument record of `SummaryModel.upsertSummary`. -/
structure SummaryUpsert where
  chatTelegramId : Int
  level : Nat
  index : Nat
  summary : String
  startSentAt : Option Nat
  endSentAt : Option Nat
  deriving Repr, DecidableEq

/-- The `$set` part of the upsert: overwrite `summary`, the covered range and
`updatedAt` on the matched document (the key fields and `createdAt` are not
in the `$set` document, so they are preserved). -/
def applySummarySet (doc : SummaryUpsert) (now : Nat) (s : SummaryDoc) :
    SummaryDoc :=
  { s with summary := doc.summary, startSentAt := doc.startSentAt,
           endSentAt := doc.endSentAt, updatedAt := now }

/-- The document inserted by the upsert when no document matches the key
(`$set` plus `$setOnInsert`). -/
def summaryInsertDoc (doc : SummaryUpsert) (now : Nat) : SummaryDoc :=
  { chatTelegramId := doc.chatTelegramId, level := doc.level,
    index := doc.index, summary := doc.summary,
    startSentAt := doc.startSentAt, endSentAt := doc.endSentAt,
    createdAt := now, updatedAt := now }

/-- `SummaryModel.upsertSummary`: `updateOne` on the key filter with
`{ $set, $setOnInsert }` and `upsert: true`.  If a document with the key
exists it is updated in place, otherwise a new document is inserted. -/
def upsertSummary (sums : List SummaryDoc) (doc : SummaryUpsert) (now : Nat) :
    List SummaryDoc :=
  if sums.any (summaryKey doc.chatTelegramId doc.level doc.index) then
    updateFirst (summaryKey doc.chatTelegramId doc.level doc.index)
      (applySummarySet doc now) sums
  else
    sums ++ [summaryInsertDoc doc now]

/-! ## Event store reads (`MessageModel`, `Message.ts`) -/

/-- `MessageModel.countMessages`: `countDocuments({ chatTelegramId })`. -/
def countMessages (msgs : List MessageDoc) (chat : Int) : Nat :=
  (msgs.filter (fun m => m.chatTelegramId == chat)).length

/-- A populated message: the raw document joined at read time with its
author, replied-to message (and its author), forward origin user and
reaction users (`buildPopulationStages` in `Message.ts`). -/
structure PopulatedMsg where
  base : MessageDoc
  user : Option TelegramUserDoc
  replyToMessage : Option (MessageDoc × Option TelegramUserDoc)
  forwardFromUser : Option TelegramUserDoc
  reactionUsers : List (MessageReaction × Option TelegramUserDoc)
  deriving Repr, DecidableEq

/-- The read-time `$lookup` join of one message document against the
`telegramusers` and `messages` collections. -/
def populate (users : List TelegramUserDoc) (msgs : List MessageDoc)
    (m : MessageDoc) : PopulatedMsg :=
  { base := m
    user := users.find? (fun u => u.telegramId == m.userTelegramId)
    replyToMessage :=
      match m.replyToMessageTelegramId with
      | none => none
      | some rid =>
        match msgs.find? (fun r =>
            r.telegramId == rid && r.chatTelegramId == m.chatTelegramId) with
        | none => none
        | some r =>
          some (r, users.find? (fun u => u.telegramId == r.userTelegramId))
    forwardFromUser :=
      match m.forwardFromUserTelegramId with
      | none => none
      | some fid => users.find? (fun u => u.telegramId == fid)
    reactionUsers := m.reactions.map (fun r =>
      (r, users.find? (fun u => u.telegramId == r.userTelegramId))) }

/-- `MessageModel.getRecentMessages`: the pipeline
`match chat, sort sentAt desc, limit`, then population. -/
def getRecentMessages (users : List TelegramUserDoc)
    (msgs : List MessageDoc) (chat : Int) (limit : Nat) : List PopulatedMsg :=
  (((sortBy (fun a b => b.sentAt ≤ a.sentAt)
      (msgs.filter (fun m => m.chatTelegramId == chat))).take limit).map
    (populate users msgs))

/-- `MessageModel.getMessagesAscending`: the pipeline
`match chat, sort sentAt asc, skip, limit`, then population. -/
def getMessagesAscending (users : List TelegramUserDoc)
    (msgs : List MessageDoc) (chat : Int) (skip limit : Nat) :
    List PopulatedMsg :=
  ((((sortBy (fun a b => a.sentAt ≤ b.sentAt)
      (msgs.filter (fun m => m.chatTelegramId == chat))).drop skip).take
        limit).map (populate users msgs))

/-- `MessageModel.findByMessageTelegramId`: first document matching
`{ telegramId, chatTelegramId }`, populated. -/
def findByMessageTelegramId (users : List TelegramUserDoc)
    (msgs : List MessageDoc) (telegramId chat : Int) : Option PopulatedMsg :=
  (msgs.find? (fun m =>
      m.telegramId == telegramId && m.chatTelegramId == chat)).map
    (populate users msgs)

/-! ## Event store writes -/

/-- Errors surfaced by the store and orchestration layers. -/
inductive StoreError where
  | duplicateKey
  | notFound
  deriving Repr, DecidableEq

/-- The index definitions created by `MessageModel.createIndexes`: each is a
list of key field names plus the `unique` flag. -/
def messageIndexDefinitions : List (List String × Bool) :=
  [ (["chatTelegramId", "sentAt"], false)
  , (["userTelegramId"], false)
  , (["forwardFromUserTelegramId"], false)
  , (["telegramId", "chatTelegramId"], true)
  , (["reactions.userTelegramId"], false)
  , (["telegramId"], true) ]

/-- MongoDB field access for the numeric fields that appear in query filters
and index keys.  A field name that does not exist on the document yields
`none`; an equality filter against a number never matches such a field. -/
def MessageDoc.getNumField (m : MessageDoc) : String → Option Int
  | "telegramId" => some m.telegramId
  | "chatTelegramId" => some m.chatTelegramId
  | "userTelegramId" => some m.userTelegramId
  | "sentAt" => some (m.sentAt : Int)
  | "forwardFromUserTelegramId" => m.forwardFromUserTelegramId
  | _ => none

/-- Whether a document matches a conjunction of numeric equality filters,
MongoDB style: `{ f₁: v₁, f₂: v₂ }`. -/
def matchesFilter (filter : List (String × Int)) (m : MessageDoc) : Bool :=
  filter.all (fun kv => m.getNumField kv.1 == some kv.2)

/-- Whether inserting `doc` into `msgs` would violate one of the unique
indexes of `messageIndexDefinitions`. -/
def violatesUniqueIndex (msgs : List MessageDoc) (doc : MessageDoc) : Bool :=
  (messageIndexDefinitions.filter (fun d => d.2)).any (fun d =>
    msgs.any (fun e =>
      d.1.all (fun k => e.getNumField k == doc.getNumField k)))

/-- `collection.insertOne` under the unique indexes: fails with a
duplicate-key error when a unique index already holds the new key. -/
def insertOne (msgs : List MessageDoc) (doc : MessageDoc) :
    Except StoreError (List MessageDoc) :=
  if violatesUniqueIndex msgs doc then .error .duplicateKey
  else .ok (msgs ++ [doc])

/-- The data argument of `MessageModel.saveMessage` (the fields the callers
supply; `edits`/`reactions` are always initialised empty). -/
structure SaveMessageData where
  telegramId : Int
  chatTelegramId : Int
  userTelegramId : Int
  text : Option String
  context : Option String
  fileName : Option String
  replyToMessageTelegramId : Option Int
  replyQuoteText : Option String
  sentAt : Option Nat
  messageType : Option String
  forwardOrigin : Option String
  forwardFromUserTelegramId : Option Int
  deriving Repr, DecidableEq

/-- `MessageModel.saveMessage`: builds the new document with empty
edit/reaction lists and inserts it. -/
def saveMessage (msgs : List MessageDoc) (data : SaveMessageData)
    (now : Nat) : Except StoreError (List MessageDoc) :=
  insertOne msgs
    { telegramId := data.telegramId
      chatTelegramId := data.chatTelegramId
      userTelegramId := data.userTelegramId
      text := data.text
      context := data.context
      fileName := data.fileName
      replyToMessageTelegramId := data.replyToMessageTelegramId
      replyQuoteText := data.replyQuoteText
      sentAt := data.sentAt.getD now
      editDate := none
      edits := []
      reactions := []
      messageType := data.messageType.getD "text"
      forwardOrigin := data.forwardOrigin
      forwardFromUserTelegramId := data.forwardFromUserTelegramId
      createdAt := now
      updatedAt := now }

/-- `MessageModel.editMessage`.  It looks the message up by
`{ telegramId, chatTelegramId }`, throws when absent, computes the edit
snapshot, then calls `updateOne` with the filter `{ messageId, chatId }` —
field names that do not exist on message documents (the schema fields are
`telegramId` and `chatTelegramId`), exactly as the source writes it. -/
def editMessage (users : List TelegramUserDoc) (msgs : List MessageDoc)
    (messageId chatId : Int) (newText : String) (now : Nat) :
    Except StoreError (List MessageDoc) :=
  match findByMessageTelegramId users msgs messageId chatId with
  | none => .error .notFound
  | some existingMessage =>
    let newVersion := existingMessage.base.edits.length + 1
    let editEntry : MessageEdit :=
      { text := existingMessage.base.text, editedAt := now,
        version := newVersion }
    .ok (updateFirst
      (matchesFilter [("messageId", messageId), ("chatId", chatId)])
      (fun d => { d with text := some newText, editDate := some now,
                         updatedAt := now, edits := d.edits ++ [editEntry] })
      msgs)

/-- The reaction data carried by `updateReactions` entries
(`Omit<MessageReaction, 'userTelegramId' | 'addedAt'>`). -/
structure ReactionData where
  emoji : Option String
  customEmojiId : Option String
  deriving Repr, DecidableEq

/-- The reconciliation at the heart of `MessageModel.updateReactions`:
keep every reaction of another author; keep a reaction of this author only
when no entry of `removed` matches both its emoji and its custom-emoji id;
then append a fresh reaction per entry of `added` stamped `now`. -/
def reconcileReactions (old : List MessageReaction) (userTelegramId : Int)
    (added removed : List ReactionData) (now : Nat) : List MessageReaction :=
  (old.filter (fun reaction =>
    if reaction.userTelegramId != userTelegramId then true
    else !(removed.any (fun r =>
      r.emoji == reaction.emoji && r.customEmojiId == reaction.customEmojiId))))
  ++ added.map (fun reaction =>
    { emoji := reaction.emoji, customEmojiId := reaction.customEmojiId,
      userTelegramId := userTelegramId, addedAt := now })

/-- `MessageModel.updateReactions`: find the message, throw when absent,
compute the reconciled list in memory, and write it back with `updateOne`
on `{ telegramId, chatTelegramId }`. -/
def updateReactions (users : List TelegramUserDoc) (msgs : List MessageDoc)
    (messageTelegramId chatTelegramId userTelegramId : Int)
    (added removed : List ReactionData) (now : Nat) :
    Except StoreError (List MessageDoc) :=
  match findByMessageTelegramId users msgs messageTelegramId chatTelegramId with
  | none => .error .notFound
  | some message =>
    let updatedReactions :=
      reconcileReactions message.base.reactions userTelegramId added removed now
    .ok (updateFirst
      (matchesFilter [("telegramId", messageTelegramId),
                      ("chatTelegramId", chatTelegramId)])
      (fun d => { d with reactions := updatedReactions, updatedAt := now })
      msgs)

/-! ## Memory store (`MemoryModel`, `Memory.ts`) -/

/-- The data argument of `MemoryModel.addMemory`. -/
structure AddMemoryData where
  chatTelegramId : Int
  addedByUserTelegramId : Int
  text : String
  sourceMessageTelegramId : Option Int
  deriving Repr, DecidableEq

/-- `MemoryModel.addMemory`: inserts one memory document with trimmed
text. -/
def addMemory (mems : List MemoryDoc) (doc : AddMemoryData) (now : Nat) :
    List MemoryDoc :=
  mems ++ [{ chatTelegramId := doc.chatTelegramId
             addedByUserTelegramId := doc.addedByUserTelegramId
             text := jsTrim doc.text
             sourceMessageTelegramId := doc.sourceMessageTelegramId
             createdAt := now, updatedAt := now }]

/-- `MemoryModel.listByChat`: chat filter, `createdAt` ascending, limit. -/
def listByChat (mems : List MemoryDoc) (chat : Int) (limit : Nat) :
    List MemoryDoc :=
  ((sortBy (fun a b => a.createdAt ≤ b.createdAt)
    (mems.filter (fun m => m.chatTelegramId == chat))).take limit)

/-! ## Rollup engine (`TelegramBotService.ensureSummaries`) -/

/-- JavaScript `a || b` on an optional string: both `undefined` and the
empty string are falsy. -/
def jsOrString (a : Option String) (b : String) : String :=
  match a with
  | some s => if s = "" then b else s
  | none => b

/-- Rendering of a timestamp (`new Date(t).toISOString()`); timestamps are
abstract ticks, so the rendering is their decimal form.  No claim inspects
the rendered text. -/
def isoString (t : Nat) : String := toString t

/-- The level-0 summarization instruction passed to `summarizeText`. -/
def level0Instruction : String :=
  "Summarize the following 200 chronological chat messages into a compact, information-dense paragraph or two. Include main topics, key decisions, answers, and unresolved questions. Keep most relevant names. Avoid quoting unless essential."

/-- The higher-level summarization instruction passed to `summarizeText`. -/
def higherLevelInstruction : String :=
  "Summarize these 200 summaries into a compact overview that preserves chronology and the most critical developments, decisions, conclusions, and ongoing threads. Keep it brief yet comprehensive."

/-- The per-message label built by the level-0 batch formatting. -/
def level0Label (idx : Nat) (msg : PopulatedMsg) : String :=
  let n := 200 - idx
  let label := toString n ++ ".." ++ toString (if n - 1 ≥ 1 then n - 1 else 1)
  let user := jsOrString (msg.user.bind (fun u => u.username))
    (jsOrString (msg.user.bind (fun u => u.firstName)) "Unknown")
  let text := jsOrString msg.base.text "[non-text content]"
  let ts := isoString msg.base.sentAt
  s!"{label} | {ts} | {user}: {text}"

/-- One `upsertSummary` call performed by the rollup engine, recorded for
observation: the level and index written and the number of underlying
entries in the block that was summarized. -/
structure SummaryWrite where
  level : Nat
  index : Nat
  blockLen : Nat
  deriving Repr, DecidableEq

/-- The level-0 `for` loop of `ensureSummaries`: `count` iterations remain,
`i` is the current block index (the loop bounds were computed before the
loop started).  A batch shorter than expected only breaks the loop when it
is empty, exactly as the source `if (batch.length === 0) break`. -/
def level0Loop (users : List TelegramUserDoc) (msgs : List MessageDoc)
    (chat : Int) (summarize : List String → String → String) (now : Nat) :
    Nat → Nat → List SummaryDoc → List SummaryDoc × List SummaryWrite
  | 0, _, sums => (sums, [])
  | count + 1, i, sums =>
    let batch := getMessagesAscending users msgs chat (i * 200) 200
    if batch.length = 0 then (sums, [])
    else
      let labeled := batch.enum.map (fun p => level0Label p.1 p.2)
      let summary := summarize labeled level0Instruction
      let sums2 := upsertSummary sums
        { chatTelegramId := chat, level := 0, index := i, summary := summary
          startSentAt := batch.head?.map (fun m => m.base.sentAt)
          endSentAt := batch.getLast?.map (fun m => m.base.sentAt) } now
      let rest := level0Loop users msgs chat summarize now count (i + 1) sums2
      (rest.1, ⟨0, i, batch.length⟩ :: rest.2)

/-- The inner `for` loop of the higher-level pass at a fixed `level`. -/
def higherLevelInner (chat : Int)
    (summarize : List String → String → String) (now : Nat) (level : Nat) :
    Nat → Nat → List SummaryDoc → List SummaryDoc × List SummaryWrite
  | 0, _, sums => (sums, [])
  | count + 1, i, sums =>
    let range := getRangeByLevelAscending sums chat (level - 1) (i * 200) 200
    if range.length = 0 then (sums, [])
    else
      let labeled := range.enum.map
        (fun p => "Block " ++ toString (p.1 + 1) ++ ": " ++ p.2.summary)
      let summary := summarize labeled higherLevelInstruction
      let sums2 := upsertSummary sums
        { chatTelegramId := chat, level := level, index := i,
          summary := summary
          startSentAt := range.head?.bind (fun s => s.startSentAt)
          endSentAt := range.getLast?.bind (fun s => s.endSentAt) } now
      let rest := higherLevelInner chat summarize now level count (i + 1) sums2
      (rest.1, ⟨level, i, range.length⟩ :: rest.2)

/-- The `while (true)` loop of `ensureSummaries` over levels `1, 2, …`,
breaking once the level below holds fewer than 200 summaries.  The source
loop is unbounded; `fuel` bounds the level iterations of the embedding.
`ensureSummaries` passes one more unit of fuel than the level-0 summary
count, which always reaches the breaking iteration because the summary
count strictly decreases from one level to the next (this is established,
not assumed, by the theorems below, whose conclusions describe the final
counts at every level). -/
def higherLevelLoop (chat : Int)
    (summarize : List String → String → String) (now : Nat) :
    Nat → Nat → List SummaryDoc → List SummaryDoc × List SummaryWrite
  | 0, _, sums => (sums, [])
  | fuel + 1, level, sums =>
    let lowerCount := getCount sums chat (level - 1)
    if lowerCount < 200 then (sums, [])
    else
      let existingHigherCount := getCount sums chat level
      let requiredHigherBlocks := lowerCount / 200
      let step := higherLevelInner chat summarize now level
        (requiredHigherBlocks - existingHigherCount) existingHigherCount sums
      let rest := higherLevelLoop chat summarize now fuel (level + 1) step.1
      (rest.1, step.2 ++ rest.2)

/-- `TelegramBotService.ensureSummaries`: level-0 maintenance followed by
the higher-level pass.  Returns the final summary store plus the list of
`upsertSummary` calls performed (the write log used to observe side
effects). -/
def ensureSummaries (users : List TelegramUserDoc) (msgs : List MessageDoc)
    (chat : Int) (summarize : List String → String → String) (now : Nat)
    (sums : List SummaryDoc) : List SummaryDoc × List SummaryWrite :=
  let totalMessages := countMessages msgs chat
  let existingLevel0Count := getCount sums chat 0
  let requiredLevel0Blocks := totalMessages / 200
  let step := level0Loop users msgs chat summarize now
    (requiredLevel0Blocks - existingLevel0Count) existingLevel0Count sums
  let rest := higherLevelLoop chat summarize now
    (getCount step.1 chat 0 + 1) 1 step.1
  (rest.1, step.2 ++ rest.2)

/-! ## Context assembler (`TelegramBotService.buildHistoricalContextSections`) -/

/-- The probe loop finding the first summary level with zero documents
(`while ((await summaryModel.getCount(chatId, probeLevel)) > 0) probeLevel += 1`).
The source loop is unbounded; distinct levels with documents hold disjoint
documents, so `sums.length + 1` probes always reach an empty level. -/
def probeFirstEmptyLevel (sums : List SummaryDoc) (chat : Int) :
    Nat → Nat → Nat
  | 0, probe => probe
  | fuel + 1, probe =>
    if getCount sums chat probe > 0 then
      probeFirstEmptyLevel sums chat fuel (probe + 1)
    else probe

/-- The pinned-memory section (step 1 of the assembler). -/
def memorySections (mems : List MemoryDoc) (chat : Int) : List String :=
  let memories := listByChat mems chat 100
  if memories.length > 0 then
    ["Pinned chat memory (facts to honor in replies):\n" ++
      String.intercalate "\n" (memories.map (fun m => "• " ++ m.text))]
  else []

/-- The sections for levels `maxLevel` down to `1` (step 2, higher part). -/
def higherLevelSections (sums : List SummaryDoc) (chat : Int) : List String :=
  let probe := probeFirstEmptyLevel sums chat (sums.length + 1) 0
  -- maxLevel = probe - 1; the loop runs l = maxLevel, maxLevel-1, …, 1
  ((List.range (probe - 1)).reverse.map (fun k => k + 1)).flatMap (fun l =>
    (getByLevelAscending sums chat l).map (fun s =>
      let title := if l = probe - 1 then
        "Very long time ago messages: SUMMARY of previous SUMMARIES"
      else "Older messages: SUMMARY of previous SUMMARIES"
      title ++ "\n" ++ s.summary))

/-- `Math.max(0, Math.floor(Math.max(0, totalMessages - 200) / 200))`:
the number of complete 200-message blocks strictly before the last 200
messages (truncated `Nat` subtraction models the clamping `max 0`). -/
def blocksBeforeExact (total : Nat) : Nat := (total - 200) / 200

/-- `Math.min(blocksBeforeExact - 1, completedBlocks - 1)` over JavaScript
numbers, which may be `-1`. -/
def lastIncludedIdx (total completedBlocks : Nat) : Int :=
  min ((blocksBeforeExact total : Int) - 1) ((completedBlocks : Int) - 1)

/-- The level-0 block indices whose summaries are emitted by the assembler:
`b` from `0` to `lastIncludedIdx`, skipping (`continue`) indices without a
summary in the ascending level-0 list. -/
def includedLevel0Indices (sums : List SummaryDoc) (msgs : List MessageDoc)
    (chat : Int) : List Nat :=
  let total := countMessages msgs chat
  let level0Summaries := getByLevelAscending sums chat 0
  let last := lastIncludedIdx total level0Summaries.length
  if last < 0 then []
  else (List.range (last.toNat + 1)).filter
    (fun b => (level0Summaries.get? b).isSome)

/-- The level-0 sections (step 2, recent part): each included block is
labeled with its message-count distance from the present. -/
def level0Sections (sums : List SummaryDoc) (msgs : List MessageDoc)
    (chat : Int) : List String :=
  let total := countMessages msgs chat
  let level0Summaries := getByLevelAscending sums chat 0
  let last := lastIncludedIdx total level0Summaries.length
  if last < 0 then []
  else (List.range (last.toNat + 1)).filterMap (fun b =>
    (level0Summaries.get? b).map (fun s =>
      let distanceFromEnd := last.toNat - b
      let lower := (distanceFromEnd + 1) * 200
      let upper := lower + 200
      s!"{upper}-{lower} messages:\n" ++ s.summary))

/-- `TelegramBotService.buildHistoricalContextSections`: pinned memory,
then higher-level summaries, then the included level-0 summaries. -/
def buildHistoricalContextSections (sums : List SummaryDoc)
    (mems : List MemoryDoc) (msgs : List MessageDoc) (chat : Int) :
    List String :=
  memorySections mems chat ++ higherLevelSections sums chat ++
    level0Sections sums msgs chat

/-- The coverage notion of the specification: a stored message at ascending
position `p` is represented in the assembled context when it falls inside
the covered range of an included level-0 summary (block `b` summarizes
ascending positions `[200·b, 200·b + 200)`, the slice `ensureSummaries`
reads for it) or inside the raw window of the last `min 200 total`
messages. -/
def coveredByAssembledContext (sums : List SummaryDoc)
    (msgs : List MessageDoc) (chat : Int) (p : Nat) : Bool :=
  let total := countMessages msgs chat
  (includedLevel0Indices sums msgs chat).any
    (fun b => decide (200 * b ≤ p) && decide (p < 200 * b + 200)) ||
    decide (total - min 200 total ≤ p)

/-! ## Router / generation orchestrator (`AiService.generateResponse`) -/

/-- The parsed JSON arguments of a router tool call; a failed
`JSON.parse` yields the empty record (all fields absent). -/
structure RouterArgs where
  text : Option String
  provideAllChatHistory : Option Bool
  enableWebAccess : Option Bool
  deriving Repr, DecidableEq

/-- One tool call returned by the router completion. -/
structure RouterToolCall where
  name : String
  args : RouterArgs
  deriving Repr, DecidableEq

/-- The routed decision: exactly one of the two available actions. -/
inductive Decision where
  | save_to_memory (text : String)
  | generate_response (provideAllChatHistory enableWebAccess : Bool)
  deriving Repr, DecidableEq

/-- The decision parsing of `generateResponse` (`ai.service.ts`): the
default is `generate_response(false, false)`; only the first tool call is
considered; a name that is neither available action leaves the default. -/
def routerDecision (routerToolCalls : List RouterToolCall) : Decision :=
  match routerToolCalls with
  | [] => .generate_response false false
  | call :: _ =>
    if call.name = "save_to_memory" then
      .save_to_memory (jsTrim (call.args.text.getD ""))
    else if call.name = "generate_response" then
      .generate_response (call.args.provideAllChatHistory.getD false)
        (call.args.enableWebAccess.getD false)
    else .generate_response false false

/-- One message of a chat-completion input.  Tool-call records carry their
payload structurally; the JSON wire encoding is transport. -/
inductive ChatMsg where
  | system (content : String)
  | user (content : String)
  | assistant (content : String)
  | assistantToolCall (name : String) (textArg : String)
  | toolResult (success : Bool) (payload : String)
  deriving Repr, DecidableEq

/-- JavaScript truthiness of an optional string. -/
def jsTruthyS (o : Option String) : Bool :=
  match o with
  | some s => s ≠ ""
  | none => false

/-- JavaScript truthiness of an optional boolean. -/
def jsTruthyB (o : Option Bool) : Bool := o.getD false

/-- `formatTimestamp` (`toISOString().slice(0, 16).replace('T', ' ')`);
like `isoString`, an injective rendering of the abstract tick. -/
def formatTimestamp (t : Nat) : String := toString t

/-- `formatUserDisplayName` from `buildContext`. -/
def formatUserDisplayName (user : Option TelegramUserDoc) : String :=
  match user with
  | none => "Unknown User"
  | some u =>
    let fullName := String.intercalate " "
      (([u.firstName, u.lastName].filterMap id).filter (fun s => s ≠ ""))
    let d0 := jsOrString (some fullName) (jsOrString u.username "Unknown")
    let d1 := d0 ++ (if jsTruthyB u.isPremium then " (premium)" else "")
    let d2 := d1 ++ (if u.isBot then " [bot]" else "")
    let d3 := d2 ++ (match u.languageCode with
      | some lc => if lc ≠ "" then ", " ++ lc else ""
      | none => "")
    if jsTruthyS u.username && (fullName ≠ "") &&
        (u.username != some fullName) then
      d3 ++ " (@" ++ u.username.getD "" ++ ")"
    else d3

/-- `createMessageMetadata` from `buildContext`. -/
def createMessageMetadata (msg : PopulatedMsg) : String :=
  let parts : List String :=
    ["[" ++ formatTimestamp msg.base.sentAt ++ "]"]
    ++ (if msg.base.messageType ≠ "" && msg.base.messageType ≠ "text" then
          ["Type: " ++ msg.base.messageType] else [])
    ++ (if jsTruthyS msg.base.fileName then
          ["File: " ++ msg.base.fileName.getD ""] else [])
    ++ (match msg.base.edits.getLast? with
        | some lastEdit =>
          ["Edited " ++ toString msg.base.edits.length ++
            " times (last at " ++ formatTimestamp lastEdit.editedAt ++ ")"]
        | none => [])
    ++ (match msg.forwardFromUser with
        | some fu => ["Forwarded from: " ++ formatUserDisplayName (some fu)]
        | none => [])
    ++ (match msg.base.forwardOrigin with
        | some origin => ["Forward origin: " ++ origin]
        | none => [])
    ++ (match msg.replyToMessage with
        | some reply =>
          ["Replying to " ++ formatUserDisplayName reply.2 ++ ": \"" ++
            jsOrString reply.1.text "[non-text content]" ++ "\""]
          ++ (match msg.base.replyQuoteText with
              | some q => if jsTrim q ≠ "" then ["Quote: \"" ++ jsTrim q ++ "\""]
                          else []
              | none => [])
        | none => [])
    ++ (if msg.reactionUsers.length > 0 then
          ["Reactions: " ++ String.intercalate ", "
            (msg.reactionUsers.map (fun ru =>
              jsOrString ru.1.emoji (jsOrString ru.1.customEmojiId "") ++
                " by " ++ formatUserDisplayName ru.2))]
        else [])
  String.intercalate " | " parts

/-- `isFromBot` from `buildContext`. -/
def isFromBot (msg : PopulatedMsg) (botUsername : String) : Bool :=
  (match msg.user with
   | some u => u.username == some botUsername
   | none => false) ||
  (msg.user.map (fun u => u.isBot)).getD false

/-- `convertToOpenAIMessage` from `buildContext`. -/
def convertToOpenAIMessage (botUsername : String) (msg : PopulatedMsg) :
    ChatMsg :=
  let userName := formatUserDisplayName msg.user
  let metadata := createMessageMetadata msg
  let body :=
    (if metadata ≠ "" then metadata ++ "\n" else "") ++
    jsOrString msg.base.text "[non-text content]" ++
    (match msg.base.context with
     | some c => if jsTrim c ≠ "" then "\nContext: " ++ jsTrim c else ""
     | none => "")
  if isFromBot msg botUsername then ChatMsg.assistant body
  else ChatMsg.user (userName ++ ":\n" ++ body)

/-- Prefix the content of a completion message (`{ ...m, content: … }`). -/
def prependContent (s : String) : ChatMsg → ChatMsg
  | .system c => .system (s ++ c)
  | .user c => .user (s ++ c)
  | .assistant c => .assistant (s ++ c)
  | .assistantToolCall n a => .assistantToolCall n a
  | .toolResult ok p => .toolResult ok p

/-- `AiService.buildContext` (router version): memory block, summary
blocks, then the chronological window re-ordered oldest→newest with each
message numbered by its distance from the present (most recent = 1). -/
def buildContext (messages : List PopulatedMsg) (botUsername : String)
    (memories : Option (List MemoryDoc))
    (summaries : Option (List SummaryDoc)) : List ChatMsg :=
  let chronologicalBase :=
    messages.reverse.map (convertToOpenAIMessage botUsername)
  let chronological := chronologicalBase.enum.map (fun p =>
    let labelNumber := chronologicalBase.length - p.1
    prependContent (toString labelNumber ++ ":\n") p.2)
  let memoryBlocks : List ChatMsg :=
    match memories with
    | some mems =>
      if mems.length > 0 then
        [ChatMsg.system ("Pinned chat memory (facts to honor in replies):\n"
          ++ String.intercalate "\n" (mems.map (fun m => "• " ++ m.text)))]
      else []
    | none => []
  let summaryBlocks : List ChatMsg :=
    match summaries with
    | some ss => ss.map (fun s => ChatMsg.system s.summary)
    | none => []
  memoryBlocks ++ summaryBlocks ++ chronological

/-- The main system prompt.  The production prompt is a long fixed text
(behaviour rules, personality, capabilities); its content is out of the
specified core (spec §1) and no claim inspects it, so it is abbreviated to
a stand-in that keeps the data flow (`botUsername` interpolation). -/
def getSystemPrompt (botUsername : String) : String :=
  "You are " ++ botUsername ++ " [behaviour rules / personality / capabilities]"

/-- The trailing no-metadata system reminder. -/
def noMetadataReminder : String := "REMEMBER - NO METADATA IN YOUR RESPONSE."

/-- The result of `AiService.generateResponse` (`AiResponseResult`). -/
structure AiResult where
  text : String
  toolsUsed : List String
  deriving Repr, DecidableEq

/-- The observable outcome of one `generateResponse` invocation: the
returned result, the memory store afterwards, the inputs of the final
(gpt-5-chat) completion calls performed, and the executed decision. -/
structure GenOutcome where
  result : AiResult
  memStore : List MemoryDoc
  finalCalls : List (List ChatMsg)
  executed : Decision
  deriving Repr, DecidableEq

/-- `AiService.generateResponse` after the router completion: `complete`
is the external generation capability (input messages to returned
content), `routerToolCalls` the tool calls the router capability returned
for the trigger, `memStore` the memory collection. -/
def generateResponse (messages : List PopulatedMsg)
    (triggerMessage : MessageDoc) (botUsername : String)
    (memories : Option (List MemoryDoc))
    (summaries : Option (List SummaryDoc)) (memStore : List MemoryDoc)
    (routerToolCalls : List RouterToolCall)
    (complete : List ChatMsg → String) (now : Nat) :
    Except String GenOutcome :=
  match routerDecision routerToolCalls with
  | .save_to_memory textArg =>
    let textToRemember := jsTrim textArg
    let persisted := textToRemember.length > 0
    let memStore2 :=
      if persisted then
        addMemory memStore
          { chatTelegramId := triggerMessage.chatTelegramId
            addedByUserTelegramId := triggerMessage.userTelegramId
            text := textToRemember
            sourceMessageTelegramId := some triggerMessage.telegramId } now
      else memStore
    let toolsUsed := if persisted then ["save_to_memory"] else []
    let recentWindow := messages.take 200
    let baseChatMessages := buildContext recentWindow botUsername memories none
    let finalMessages :=
      [ChatMsg.system (getSystemPrompt botUsername)] ++ baseChatMessages ++
      [ChatMsg.assistantToolCall "save_to_memory" textToRemember,
       ChatMsg.toolResult persisted
         (if persisted then textToRemember
          else "save_to_memory not executed (empty text)"),
       ChatMsg.system noMetadataReminder]
    let reply := jsTrim (complete finalMessages)
    if reply = "" then .error "Empty response from AI service"
    else .ok { result := { text := reply, toolsUsed := toolsUsed }
               memStore := memStore2
               finalCalls := [finalMessages]
               executed := .save_to_memory textArg }
  | .generate_response provideAllChatHistory enableWebAccess =>
    let contextMessages := buildContext
      (if provideAllChatHistory then messages else messages.take 200)
      botUsername memories
      (if provideAllChatHistory then summaries else none)
    let baseMessages :=
      [ChatMsg.system (getSystemPrompt botUsername)] ++ contextMessages ++
      [ChatMsg.system noMetadataReminder]
    let replyText := jsTrim (complete baseMessages)
    if replyText = "" then .error "Empty response from AI service"
    else .ok { result := { text := replyText, toolsUsed := [] }
               memStore := memStore
               finalCalls := [baseMessages]
               executed := .generate_response provideAllChatHistory
                 enableWebAccess }

/-! ## Helper lemmas about the store primitives -/

theorem updateFirst_append_first_match (p : α → Bool) (f : α → α)
    (l1 : List α) (m : α) (l2 : List α) (hm : p m = true)
    (h1 : ∀ x ∈ l1, p x = false) :
    updateFirst p f (l1 ++ m :: l2) = l1 ++ f m :: l2 := by
  induction l1 with
  | nil => simp [updateFirst, hm]
  | cons x xs ih =>
    have hx : p x = false := h1 x (by simp)
    simp only [List.cons_append, updateFirst, hx, Bool.false_eq_true,
      if_false]
    exact congrArg (fun t => x :: t) (ih (fun y hy => h1 y (by simp [hy])))

/-- A message filter that names a field absent from the message schema
(`messageId` and `chatId` are not fields of message documents) matches no
document. -/
theorem matchesFilter_messageId_chatId (mId cId : Int) (m : MessageDoc) :
    matchesFilter [("messageId", mId), ("chatId", cId)] m = false := by
  simp [matchesFilter, MessageDoc.getNumField]

/-! ## Claim theorems: event-store write operations -/

/-- Example documents used by concrete evaluations. -/
def baseMsg : MessageDoc :=
  { telegramId := 0, chatTelegramId := 0, userTelegramId := 0
    text := none, context := none, fileName := none
    replyToMessageTelegramId := none, replyQuoteText := none
    sentAt := 0, editDate := none, edits := [], reactions := []
    messageType := "text", forwardOrigin := none
    forwardFromUserTelegramId := none, createdAt := 0, updatedAt := 0 }

/-- C4: `editMessage` never changes the store.  Whenever the call succeeds
(the message exists), the `updateOne` filter `{ messageId, chatId }` names
fields that do not exist on message documents, so it matches nothing and
the store is returned unchanged: no edit snapshot is appended and the
text is not updated, contradicting the specified edit-versioning
behaviour. -/
theorem editMessage_is_noop (users : List TelegramUserDoc)
    (msgs : List MessageDoc) (messageId chatId : Int) (newText : String)
    (now : Nat) (res : List MessageDoc)
    (h : editMessage users msgs messageId chatId newText now =
      Except.ok res) : res = msgs := by
  unfold editMessage at h
  cases hfind : findByMessageTelegramId users msgs messageId chatId with
  | none => rw [hfind] at h; exact absurd h (by simp)
  | some existing =>
    rw [hfind] at h
    simp only [Except.ok.injEq] at h
    rw [← h]
    exact updateFirst_of_not_mem _ _ msgs
      (fun x _ => matchesFilter_messageId_chatId messageId chatId x)

/-- The concrete message of the C4 failing input. -/
def msgW : MessageDoc :=
  { baseMsg with telegramId := 5, chatTelegramId := 7, text := some "a" }

/-- C4 witness: a store holding one message with text `"a"`; a successful
edit to `"b"` leaves the store unchanged — the edit list stays empty and
the text stays `"a"`. -/
theorem editMessage_is_noop_witness :
    editMessage [] [msgW] 5 7 "b" 1 = Except.ok [msgW] ∧
    msgW.edits = [] ∧ msgW.text = some "a" := by
  have h : editMessage [] [msgW] 5 7 "b" 1 = Except.ok [msgW] := by rfl
  exact ⟨editMessage_is_noop [] [msgW] 5 7 "b" 1 [msgW] h ▸ h, rfl, rfl⟩

/-- C10: inserting a message whose `telegramId` already occurs in the
store fails with a duplicate-key error even when the
`(chatTelegramId, telegramId)` pair is new, because `createIndexes`
declares a unique index on `telegramId` alone in addition to the unique
compound index. -/
theorem violatesUniqueIndex_of_same_telegramId (msgs : List MessageDoc)
    (doc : MessageDoc) (m : MessageDoc) (hm : m ∈ msgs)
    (hid : m.telegramId = doc.telegramId) :
    violatesUniqueIndex msgs doc = true := by
  have hfilter : messageIndexDefinitions.filter (fun d => d.2) =
      [(["telegramId", "chatTelegramId"], true), (["telegramId"], true)] :=
    by decide
  have hb : (msgs.any fun e =>
      ["telegramId"].all fun k => e.getNumField k == doc.getNumField k) =
      true := by
    simp only [List.any_eq_true]
    refine ⟨m, hm, ?_⟩
    simp [MessageDoc.getNumField, hid]
  unfold violatesUniqueIndex
  rw [hfilter]
  simp only [List.any_cons, List.any_nil, Bool.or_false, Bool.or_eq_true]
  exact Or.inr hb

theorem saveMessage_duplicate_across_chats (msgs : List MessageDoc)
    (data : SaveMessageData) (now : Nat) (m : MessageDoc) (hm : m ∈ msgs)
    (hid : m.telegramId = data.telegramId)
    (_hchat : m.chatTelegramId ≠ data.chatTelegramId) :
    saveMessage msgs data now = Except.error StoreError.duplicateKey := by
  unfold saveMessage insertOne
  rw [violatesUniqueIndex_of_same_telegramId msgs _ m hm hid]
  rfl

/-- C10 witness: a store holding a message with `telegramId = 9` in chat
`1`; saving a fresh message with the same `telegramId` in chat `2` fails
with a duplicate-key error. -/
theorem saveMessage_duplicate_across_chats_witness :
    saveMessage [{ baseMsg with telegramId := 9, chatTelegramId := 1 }]
      { telegramId := 9, chatTelegramId := 2, userTelegramId := 3
        text := some "hello", context := none, fileName := none
        replyToMessageTelegramId := none, replyQuoteText := none
        sentAt := some 11, messageType := some "text"
        forwardOrigin := none, forwardFromUserTelegramId := none } 11 =
      Except.error StoreError.duplicateKey :=
  saveMessage_duplicate_across_chats _ _ 11
    { baseMsg with telegramId := 9, chatTelegramId := 1 }
    (by simp) (by decide) (by decide)

/-! ## Claim theorems: summary upsert (write-once?) -/

/-- C3 counterexample: `upsertSummary` on an existing
`(conversation, level, index)` key is not a no-op — it overwrites the
stored summary text (and covered range): after upserting `"new"` over a
stored `"old"` at the same key, the stored text is `"new"`. -/
def c3Stored : SummaryDoc :=
  { chatTelegramId := 1, level := 0, index := 0, summary := "old"
    startSentAt := some 1, endSentAt := some 2, createdAt := 5,
    updatedAt := 5 }

theorem upsertSummary_not_noop :
    (upsertSummary [c3Stored]
      { chatTelegramId := 1, level := 0, index := 0, summary := "new"
        startSentAt := some 3, endSentAt := some 4 } 9).map
        (fun s => s.summary) = ["new"] ∧
    upsertSummary [c3Stored]
      { chatTelegramId := 1, level := 0, index := 0, summary := "new"
        startSentAt := some 3, endSentAt := some 4 } 9 ≠ [c3Stored] := by
  constructor
  · decide
  · decide

/-- C3 amended: on an existing key the upsert never creates a second
document — it updates the first (under the unique index: only) matching
document in place, overwriting its summary text, covered range and
`updatedAt` while preserving its key fields and `createdAt`; the store
length is unchanged and every other document is untouched. -/
theorem upsertSummary_existing_key (l1 : List SummaryDoc) (m : SummaryDoc)
    (l2 : List SummaryDoc) (doc : SummaryUpsert) (now : Nat)
    (hm : summaryKey doc.chatTelegramId doc.level doc.index m = true)
    (h1 : ∀ x ∈ l1, summaryKey doc.chatTelegramId doc.level doc.index x =
      false) :
    upsertSummary (l1 ++ m :: l2) doc now =
      l1 ++ applySummarySet doc now m :: l2 ∧
    (upsertSummary (l1 ++ m :: l2) doc now).length =
      (l1 ++ m :: l2).length ∧
    (applySummarySet doc now m).createdAt = m.createdAt ∧
    (applySummarySet doc now m).chatTelegramId = m.chatTelegramId ∧
    (applySummarySet doc now m).level = m.level ∧
    (applySummarySet doc now m).index = m.index ∧
    (applySummarySet doc now m).summary = doc.summary := by
  have hany : (l1 ++ m :: l2).any
      (summaryKey doc.chatTelegramId doc.level doc.index) = true := by
    simp only [List.any_append, List.any_cons, hm]
    simp
  have heq : upsertSummary (l1 ++ m :: l2) doc now =
      l1 ++ applySummarySet doc now m :: l2 := by
    unfold upsertSummary
    rw [hany]
    simp only [if_true]
    exact updateFirst_append_first_match _ _ l1 m l2 hm h1
  refine ⟨heq, ?_, rfl, rfl, rfl, rfl, rfl⟩
  rw [heq]; simp

/-- C3 amended witness: overwriting `"old"` by `"new"` at the stored key
keeps exactly one document, preserves its key and `createdAt`, and stores
the new text. -/
theorem upsertSummary_existing_key_witness :
    upsertSummary [c3Stored]
      { chatTelegramId := 1, level := 0, index := 0, summary := "new"
        startSentAt := some 3, endSentAt := some 4 } 9 =
      [applySummarySet
        { chatTelegramId := 1, level := 0, index := 0, summary := "new"
          startSentAt := some 3, endSentAt := some 4 } 9 c3Stored] ∧
    (applySummarySet
      { chatTelegramId := 1, level := 0, index := 0, summary := "new"
        startSentAt := some 3, endSentAt := some 4 } 9 c3Stored).createdAt =
      c3Stored.createdAt := by
  have h := upsertSummary_existing_key []
    c3Stored []
    { chatTelegramId := 1, level := 0, index := 0, summary := "new"
      startSentAt := some 3, endSentAt := some 4 } 9
    (by decide) (by intro x hx; exact absurd hx (by simp))
  exact ⟨h.1, h.2.2.1⟩

/-! ## Claim theorems: reaction reconciliation -/

theorem find?_first (p : α → Bool) (pre : List α) (m : α) (post : List α)
    (hm : p m = true) (hpre : ∀ x ∈ pre, p x = false) :
    (pre ++ m :: post).find? p = some m := by
  induction pre with
  | nil => simp [List.find?_cons_of_pos _ hm]
  | cons x xs ih =>
    have hx : p x = false := hpre x (by simp)
    rw [List.cons_append, List.find?_cons_of_neg _ (by simp [hx])]
    exact ih (fun y hy => hpre y (by simp [hy]))

theorem matchesFilter_telegram_chat (mId cId : Int) (x : MessageDoc) :
    matchesFilter [("telegramId", mId), ("chatTelegramId", cId)] x =
      (x.telegramId == mId && x.chatTelegramId == cId) := by
  simp [matchesFilter, MessageDoc.getNumField]

/-- Reactions of a different author pass through the reconciliation
unchanged, in order. -/
theorem reconcileReactions_other_author (old : List MessageReaction)
    (uId a : Int) (added removed : List ReactionData) (now : Nat)
    (ha : a ≠ uId) :
    (reconcileReactions old uId added removed now).filter
      (fun r => r.userTelegramId == a) =
    old.filter (fun r => r.userTelegramId == a) := by
  unfold reconcileReactions
  rw [List.filter_append]
  have h2 : (added.map (fun reaction =>
      ({ emoji := reaction.emoji, customEmojiId := reaction.customEmojiId,
         userTelegramId := uId, addedAt := now } : MessageReaction))).filter
      (fun r => r.userTelegramId == a) = [] := by
    rw [List.filter_eq_nil_iff]
    intro r hr
    rw [List.mem_map] at hr
    obtain ⟨q, _, hq⟩ := hr
    subst hq
    simp [Ne.symm ha]
  rw [h2, List.append_nil, List.filter_filter]
  apply List.filter_congr
  intro r _
  by_cases hr : r.userTelegramId = a
  · have hku : (r.userTelegramId != uId) = true := by simp [hr, ha]
    simp only [hr, hku]
    simp
    exact Or.inl ha
  · simp [hr]

/-- The given author's reactions after reconciliation: the old ones whose
emoji and custom-emoji id match no removed entry, followed by one fresh
reaction per added entry stamped `now`. -/
theorem reconcileReactions_author (old : List MessageReaction) (uId : Int)
    (added removed : List ReactionData) (now : Nat) :
    (reconcileReactions old uId added removed now).filter
      (fun r => r.userTelegramId == uId) =
    old.filter (fun r => r.userTelegramId == uId &&
      !(removed.any (fun q => q.emoji == r.emoji &&
        q.customEmojiId == r.customEmojiId)))
    ++ added.map (fun q =>
      ({ emoji := q.emoji, customEmojiId := q.customEmojiId,
         userTelegramId := uId, addedAt := now } : MessageReaction)) := by
  unfold reconcileReactions
  rw [List.filter_append]
  have h2 : (added.map (fun reaction =>
      ({ emoji := reaction.emoji, customEmojiId := reaction.customEmojiId,
         userTelegramId := uId, addedAt := now } : MessageReaction))).filter
      (fun r => r.userTelegramId == uId) =
      added.map (fun q =>
        ({ emoji := q.emoji, customEmojiId := q.customEmojiId,
           userTelegramId := uId, addedAt := now } : MessageReaction)) := by
    rw [List.filter_eq_self]
    intro r hr
    rw [List.mem_map] at hr
    obtain ⟨q, _, hq⟩ := hr
    subst hq
    simp
  rw [h2]
  congr 1
  rw [List.filter_filter]
  apply List.filter_congr
  intro r _
  by_cases hr : r.userTelegramId = uId
  · simp [hr]
  · simp [hr]

/-- C5: `updateReactions` on an existing message writes back exactly the
reconciled list: it drops precisely those of the author's reactions whose
key data matches a removed entry, appends one fresh reaction per added
entry stamped with the current time, leaves every other author's
reactions unchanged, and leaves every other message untouched. -/
theorem updateReactions_spec (users : List TelegramUserDoc)
    (pre : List MessageDoc) (m : MessageDoc) (post : List MessageDoc)
    (mId cId uId : Int) (added removed : List ReactionData) (now : Nat)
    (hm : (m.telegramId == mId && m.chatTelegramId == cId) = true)
    (hpre : ∀ x ∈ pre,
      (x.telegramId == mId && x.chatTelegramId == cId) = false) :
    updateReactions users (pre ++ m :: post) mId cId uId added removed
        now =
      Except.ok (pre ++ { m with reactions := reconcileReactions m.reactions uId added removed now, updatedAt := now } :: post) ∧
    (∀ a : Int, a ≠ uId →
      (reconcileReactions m.reactions uId added removed now).filter
        (fun r => r.userTelegramId == a) =
      m.reactions.filter (fun r => r.userTelegramId == a)) ∧
    (reconcileReactions m.reactions uId added removed now).filter
      (fun r => r.userTelegramId == uId) =
    m.reactions.filter (fun r => r.userTelegramId == uId &&
      !(removed.any (fun q => q.emoji == r.emoji &&
        q.customEmojiId == r.customEmojiId)))
    ++ added.map (fun q =>
      ({ emoji := q.emoji, customEmojiId := q.customEmojiId,
         userTelegramId := uId, addedAt := now } : MessageReaction)) := by
  refine ⟨?_, fun a ha =>
      reconcileReactions_other_author m.reactions uId a added removed now
        ha,
    reconcileReactions_author m.reactions uId added removed now⟩
  have hm' : matchesFilter [("telegramId", mId), ("chatTelegramId", cId)]
      m = true := by rw [matchesFilter_telegram_chat]; exact hm
  have hpre' : ∀ x ∈ pre,
      matchesFilter [("telegramId", mId), ("chatTelegramId", cId)] x =
        false := fun x hx => by
    rw [matchesFilter_telegram_chat]; exact hpre x hx
  have hfind : findByMessageTelegramId users (pre ++ m :: post) mId cId =
      some (populate users (pre ++ m :: post) m) := by
    unfold findByMessageTelegramId
    rw [find?_first _ pre m post hm hpre]
    rfl
  unfold updateReactions
  rw [hfind]
  show Except.ok (updateFirst
      (matchesFilter [("telegramId", mId), ("chatTelegramId", cId)])
      (fun d => { d with reactions := reconcileReactions m.reactions uId added removed now, updatedAt := now })
      (pre ++ m :: post)) = _
  rw [updateFirst_append_first_match _ _ pre m post hm' hpre']

/-- C5 witness data: a message that already carries 😀 from author 20 and
👍, ❤️ from author 10 (the state after author 10 added 👍 and then ❤️). -/
def c5Msg : MessageDoc :=
  { baseMsg with
    telegramId := 5, chatTelegramId := 7
    reactions :=
      [ { userTelegramId := 20, emoji := some "😀", customEmojiId := none, addedAt := 1 }
      , { userTelegramId := 10, emoji := some "👍", customEmojiId := none, addedAt := 2 }
      , { userTelegramId := 10, emoji := some "❤️", customEmojiId := none, addedAt := 3 } ] }

/-- C5 witness: author 10 removes 👍 — the write succeeds, author 20 keeps
😀 untouched, and author 10 is left with exactly ❤️. -/
theorem updateReactions_spec_witness :
    updateReactions [] [c5Msg] 5 7 10 [] [⟨some "👍", none⟩] 4 =
      Except.ok [{ c5Msg with reactions := reconcileReactions c5Msg.reactions 10 [] [⟨some "👍", none⟩] 4, updatedAt := 4 }] ∧
    (reconcileReactions c5Msg.reactions 10 [] [⟨some "👍", none⟩]
        4).filter (fun r => r.userTelegramId == 20) =
      c5Msg.reactions.filter (fun r => r.userTelegramId == 20) ∧
    (reconcileReactions c5Msg.reactions 10 [] [⟨some "👍", none⟩]
        4).map (fun r => r.emoji) = [some "😀", some "❤️"] := by
  have h := updateReactions_spec [] [] c5Msg [] 5 7 10 []
    [⟨some "👍", none⟩] 4 (by decide)
    (by intro x hx; exact absurd hx (by simp))
  exact ⟨h.1, h.2.1 20 (by decide), by decide⟩

/-! ## Claim theorems: context assembly -/

/-- C6: the raw window always holds exactly `min 200 total` messages, and
every level-0 summary block emitted by the assembler covers only ascending
positions strictly below the raw-window boundary (block `b` covers
positions `[200·b, 200·b + 200)`, the slice `ensureSummaries` summarizes),
so no raw message appears both inside an emitted level-0 summary range and
inside the raw window. -/
theorem contextAssembly_no_overlap (users : List TelegramUserDoc)
    (sums : List SummaryDoc) (msgs : List MessageDoc) (chat : Int) :
    (getRecentMessages users msgs chat 200).length =
      min 200 (countMessages msgs chat) ∧
    (∀ b ∈ includedLevel0Indices sums msgs chat,
      200 * b + 200 ≤
        countMessages msgs chat - min 200 (countMessages msgs chat)) := by
  constructor
  · unfold getRecentMessages countMessages
    rw [List.length_map, List.length_take, length_sortBy]
  · intro b hb
    unfold includedLevel0Indices at hb
    dsimp only at hb
    by_cases hneg : lastIncludedIdx (countMessages msgs chat)
        (getByLevelAscending sums chat 0).length < 0
    · rw [if_pos hneg] at hb
      exact absurd hb (by simp)
    · rw [if_neg hneg] at hb
      have hb2 := (List.mem_filter.mp hb).1
      rw [List.mem_range] at hb2
      push_neg at hneg
      unfold lastIncludedIdx blocksBeforeExact at hneg hb2
      omega

/-- Example message and summary constructors for concrete runs. -/
def mkMsg (chat : Int) (k : Nat) : MessageDoc :=
  { baseMsg with
    telegramId := (k : Int), chatTelegramId := chat
    sentAt := k, createdAt := k, updatedAt := k }

def mkSum (chat : Int) (level index : Nat) : SummaryDoc :=
  { chatTelegramId := chat, level := level, index := index,
    summary := "s", startSentAt := none, endSentAt := none,
    createdAt := 0, updatedAt := 0 }

/-- A chat with 450 stored messages. -/
def c7msgs : List MessageDoc := (List.range 450).map (mkMsg 1)

/-- Its two due level-0 summaries (`floor(450/200) = 2`). -/
def c7sums : List SummaryDoc := [mkSum 1 0 0, mkSum 1 0 1]

set_option maxRecDepth 100000 in
/-- C6 witness: on the 450-message chat the raw window holds
`min 200 450 = 200` messages and included block `0` ends at position
`200 ≤ 450 - 200`. -/
theorem contextAssembly_no_overlap_witness :
    (getRecentMessages [] c7msgs 1 200).length =
      min 200 (countMessages c7msgs 1) ∧
    200 * 0 + 200 ≤
      countMessages c7msgs 1 - min 200 (countMessages c7msgs 1) :=
  ⟨(contextAssembly_no_overlap [] c7sums c7msgs 1).1,
   (contextAssembly_no_overlap [] c7sums c7msgs 1).2 0 (by decide)⟩

set_option maxRecDepth 100000 in
/-- C7 counterexample: with 450 messages and both due level-0 summaries
present, the stored message at ascending position 200 is in neither an
included level-0 summary range nor the raw window — the assembled context
has a gap of `450 mod 200 = 50` messages. -/
theorem contextAssembly_gap_counterexample :
    (getByLevelAscending c7sums 1 0).length = countMessages c7msgs 1 / 200 ∧
    200 < countMessages c7msgs 1 ∧
    coveredByAssembledContext c7sums c7msgs 1 200 = false := by
  refine ⟨by decide, by decide, by decide⟩

/-- C7 amended: the assembled context covers the whole history with no gap
whenever the total message count is a multiple of the window size 200 (in
particular whenever it is below 200); otherwise the `total mod 200`
messages immediately older than the raw window are in neither section. -/
theorem contextAssembly_covers_when_aligned (sums : List SummaryDoc)
    (msgs : List MessageDoc) (chat : Int)
    (hall : (getByLevelAscending sums chat 0).length =
      countMessages msgs chat / 200)
    (hmod : countMessages msgs chat % 200 = 0) :
    ∀ p, p < countMessages msgs chat →
      coveredByAssembledContext sums msgs chat p = true := by
  intro p hp
  unfold coveredByAssembledContext
  dsimp only
  rw [Bool.or_eq_true]
  by_cases hraw : countMessages msgs chat -
      min 200 (countMessages msgs chat) ≤ p
  · right
    simpa using hraw
  · left
    push_neg at hraw
    have h200 : 200 < countMessages msgs chat := by omega
    have hlast : lastIncludedIdx (countMessages msgs chat)
        (getByLevelAscending sums chat 0).length =
        ((countMessages msgs chat / 200 : Nat) : Int) - 2 := by
      unfold lastIncludedIdx blocksBeforeExact
      rw [hall]
      omega
    rw [List.any_eq_true]
    refine ⟨p / 200, ?_, by simp; omega⟩
    unfold includedLevel0Indices
    dsimp only
    rw [hlast, if_neg (by omega)]
    rw [List.mem_filter]
    constructor
    · rw [List.mem_range]
      omega
    · have hblt : p / 200 < (getByLevelAscending sums chat 0).length := by
        rw [hall]
        omega
      rw [List.get?_eq_get hblt]
      rfl

/-- A chat with exactly 400 stored messages and its two due level-0
summaries. -/
def c7AlignedMsgs : List MessageDoc := (List.range 400).map (mkMsg 1)

def c7AlignedSums : List SummaryDoc := [mkSum 1 0 0, mkSum 1 0 1]

set_option maxRecDepth 100000 in
/-- C7 amended witness: with 400 messages (a multiple of 200) and all due
summaries present, position 100 is covered by the assembled context. -/
theorem contextAssembly_covers_when_aligned_witness :
    coveredByAssembledContext c7AlignedSums c7AlignedMsgs 1 100 = true :=
  contextAssembly_covers_when_aligned c7AlignedSums c7AlignedMsgs 1
    (by decide) (by decide) 100 (by decide)

/-! ## Claim theorems: router / generation orchestrator -/

theorem routerDecision_default (toolCalls : List RouterToolCall)
    (h : toolCalls = [] ∨ ∀ c rest, toolCalls = c :: rest →
      c.name ≠ "save_to_memory" ∧ c.name ≠ "generate_response") :
    routerDecision toolCalls = Decision.generate_response false false := by
  cases toolCalls with
  | nil => rfl
  | cons c rest =>
    rcases h with h | h
    · exact absurd h (by simp)
    · obtain ⟨h1, h2⟩ := h c rest rfl
      simp [routerDecision, h1, h2]

/-- C8: every successful invocation executes exactly one of the two
actions (the executed decision is a remember exactly when it is not a
respond), and whenever the router returned no tool call — or a tool call
naming neither available action — the respond path runs with
`provideAllChatHistory = false` and `enableWebAccess = false`, persisting
nothing and reporting no tools used. -/
theorem generateResponse_exactly_one_action
    (messages : List PopulatedMsg) (trigger : MessageDoc) (u : String)
    (memories : Option (List MemoryDoc))
    (summaries : Option (List SummaryDoc)) (memStore : List MemoryDoc)
    (toolCalls : List RouterToolCall) (complete : List ChatMsg → String)
    (now : Nat) (out : GenOutcome)
    (h : generateResponse messages trigger u memories summaries memStore
      toolCalls complete now = Except.ok out) :
    ((∃ t, out.executed = Decision.save_to_memory t) ↔
      ¬∃ a b, out.executed = Decision.generate_response a b) ∧
    ((toolCalls = [] ∨ ∀ c rest, toolCalls = c :: rest →
        c.name ≠ "save_to_memory" ∧ c.name ≠ "generate_response") →
      out.executed = Decision.generate_response false false ∧
      out.memStore = memStore ∧ out.result.toolsUsed = []) := by
  unfold generateResponse at h
  cases hdec : routerDecision toolCalls with
  | save_to_memory t =>
    rw [hdec] at h
    dsimp only at h
    have hexec : out.executed = Decision.save_to_memory t := by
      split_ifs at h <;>
        first
          | exact Except.noConfusion h
          | (injection h with h2; subst h2; rfl)
    constructor
    · constructor
      · intro _
        rintro ⟨a, b, hab⟩
        rw [hexec] at hab
        simp at hab
      · intro _
        exact ⟨t, hexec⟩
    · intro hdefault
      have hd := routerDecision_default toolCalls hdefault
      rw [hdec] at hd
      exact absurd hd (by simp)
  | generate_response pa ea =>
    rw [hdec] at h
    dsimp only at h
    have hout : out.executed = Decision.generate_response pa ea ∧
        out.memStore = memStore ∧ out.result.toolsUsed = [] := by
      split_ifs at h <;>
        first
          | exact Except.noConfusion h
          | (injection h with h2; subst h2; exact ⟨rfl, rfl, rfl⟩)
    refine ⟨?_, ?_⟩
    · constructor
      · rintro ⟨t, ht⟩
        rw [hout.1] at ht
        simp at ht
      · intro hne
        exact absurd ⟨pa, ea, hout.1⟩ hne
    · intro hdefault
      have hd := routerDecision_default toolCalls hdefault
      rw [hdec] at hd
      injection hd with h1 h2
      subst h1
      subst h2
      exact hout

/-- The C8 witness outcome: the router named an unavailable tool, so the
respond path ran with both flags false. -/
def c8Out : GenOutcome :=
  { result := { text := "hi", toolsUsed := [] }
    memStore := []
    finalCalls := [[ChatMsg.system (getSystemPrompt "bot"),
      ChatMsg.system noMetadataReminder]]
    executed := Decision.generate_response false false }

/-- C8 witness: a router tool call naming `web_search` (neither available
action) yields the default respond path, no memory write and no tools
used. -/
theorem generateResponse_exactly_one_action_witness :
    generateResponse [] baseMsg "bot" none none []
      [⟨"web_search", ⟨none, none, none⟩⟩] (fun _ => "hi") 0 =
      Except.ok c8Out ∧
    c8Out.executed = Decision.generate_response false false ∧
    c8Out.memStore = [] ∧ c8Out.result.toolsUsed = [] := by
  have h : generateResponse [] baseMsg "bot" none none []
      [⟨"web_search", ⟨none, none, none⟩⟩] (fun _ => "hi") 0 =
      Except.ok c8Out := by rfl
  have h2 := (generateResponse_exactly_one_action [] baseMsg "bot" none
    none [] [⟨"web_search", ⟨none, none, none⟩⟩] (fun _ => "hi") 0 c8Out
    h).2 (Or.inr (by
      intro c rest hcr
      simp only [List.cons.injEq] at hcr
      obtain ⟨h1, _⟩ := hcr
      subst h1
      exact ⟨by decide, by decide⟩))
  exact ⟨h, h2.1, h2.2.1, h2.2.2⟩

/-- C9: when the router selects `save_to_memory` with non-empty (trimmed)
text `X`, exactly one memory is appended — carrying `X`, the trigger
message's conversation and author, and the trigger's native id as source
reference — and exactly one follow-up generation call is made whose input
is the recent 200-message window (no summaries) plus the synthetic record
of the remember action; the returned result lists `save_to_memory`. -/
theorem generateResponse_remember_path (messages : List PopulatedMsg)
    (trigger : MessageDoc) (u : String)
    (memories : Option (List MemoryDoc))
    (summaries : Option (List SummaryDoc)) (memStore : List MemoryDoc)
    (args : RouterArgs) (rest : List RouterToolCall)
    (complete : List ChatMsg → String) (now : Nat) (out : GenOutcome)
    (X : String) (hargs : args.text = some X) (htrim : jsTrim X = X)
    (hne : X.length > 0)
    (h : generateResponse messages trigger u memories summaries memStore
      (⟨"save_to_memory", args⟩ :: rest) complete now = Except.ok out) :
    out.memStore = memStore ++
      [{ chatTelegramId := trigger.chatTelegramId
         addedByUserTelegramId := trigger.userTelegramId
         text := X
         sourceMessageTelegramId := some trigger.telegramId
         createdAt := now, updatedAt := now }] ∧
    out.result.toolsUsed = ["save_to_memory"] ∧
    out.finalCalls = [[ChatMsg.system (getSystemPrompt u)] ++
      buildContext (messages.take 200) u memories none ++
      [ChatMsg.assistantToolCall "save_to_memory" X,
       ChatMsg.toolResult true X,
       ChatMsg.system noMetadataReminder]] ∧
    out.executed = Decision.save_to_memory X := by
  have hdec : routerDecision (⟨"save_to_memory", args⟩ :: rest) =
      Decision.save_to_memory X := by
    simp [routerDecision, hargs, htrim]
  unfold generateResponse at h
  rw [hdec] at h
  dsimp only at h
  rw [htrim] at h
  rw [if_pos hne, if_pos hne, if_pos hne, decide_eq_true hne] at h
  split at h
  · exact absurd h (by simp)
  · simp only [Except.ok.injEq] at h
    subst h
    refine ⟨?_, rfl, rfl, rfl⟩
    simp [addMemory, htrim]

/-- The C9 witness outcome. -/
def c9Mem : MemoryDoc :=
  { chatTelegramId := 0, addedByUserTelegramId := 0, text := "alpha"
    sourceMessageTelegramId := some 0, createdAt := 3, updatedAt := 3 }

def c9Out : GenOutcome :=
  { result := { text := "ok", toolsUsed := ["save_to_memory"] }
    memStore := [c9Mem]
    finalCalls := [[ChatMsg.system (getSystemPrompt "bot"),
      ChatMsg.assistantToolCall "save_to_memory" "alpha",
      ChatMsg.toolResult true "alpha",
      ChatMsg.system noMetadataReminder]]
    executed := Decision.save_to_memory "alpha" }

/-- C9 witness: the router selects `save_to_memory("alpha")` on the
trigger message; exactly the memory `alpha` is appended and the result
lists `save_to_memory`. -/
theorem generateResponse_remember_path_witness :
    generateResponse [] baseMsg "bot" none none []
      [⟨"save_to_memory", ⟨some "alpha", none, none⟩⟩] (fun _ => "ok") 3 =
      Except.ok c9Out ∧
    c9Out.memStore = [] ++ [c9Mem] ∧
    c9Out.result.toolsUsed = ["save_to_memory"] ∧
    c9Out.executed = Decision.save_to_memory "alpha" := by
  have h : generateResponse [] baseMsg "bot" none none []
      [⟨"save_to_memory", ⟨some "alpha", none, none⟩⟩] (fun _ => "ok") 3 =
      Except.ok c9Out := by rfl
  have h2 := generateResponse_remember_path [] baseMsg "bot" none none []
    ⟨some "alpha", none, none⟩ [] (fun _ => "ok") 3 c9Out "alpha" rfl
    (by rfl) (by decide) h
  exact ⟨h, h2.1, h2.2.1, h2.2.2.2⟩

/-! ## Claim theorems: rollup engine -/

/-- Whether a summary with the given key is present. -/
def keyExists (sums : List SummaryDoc) (chat : Int) (level index : Nat) :
    Bool :=
  sums.any (summaryKey chat level index)

/-- Indices at a level are exactly `0, …, count − 1` (contiguous from 0,
no gaps, no duplicates beyond the count). -/
def ContigAt (sums : List SummaryDoc) (chat : Int) (level : Nat) : Prop :=
  ∀ i, keyExists sums chat level i = true ↔ i < getCount sums chat level

/-- A summary store the rollup engine can have produced for `chat`:
every level is contiguous from index 0, the level-0 count never exceeds
the due block count, and each higher level never exceeds what the level
below supports. -/
def ValidState (msgs : List MessageDoc) (sums : List SummaryDoc)
    (chat : Int) : Prop :=
  (∀ L, ContigAt sums chat L) ∧
  getCount sums chat 0 ≤ countMessages msgs chat / 200 ∧
  (∀ L, getCount sums chat (L + 1) ≤ getCount sums chat L / 200)

theorem validState_empty (msgs : List MessageDoc) (chat : Int) :
    ValidState msgs [] chat := by
  refine ⟨fun L i => ?_, by simp [getCount], fun L => by simp [getCount]⟩
  simp [keyExists, getCount]

theorem getMessagesAscending_length (users : List TelegramUserDoc)
    (msgs : List MessageDoc) (chat : Int) (skip limit : Nat) :
    (getMessagesAscending users msgs chat skip limit).length =
      min limit (countMessages msgs chat - skip) := by
  unfold getMessagesAscending countMessages
  rw [List.length_map, List.length_take, List.length_drop, length_sortBy]

theorem getRangeByLevelAscending_length (sums : List SummaryDoc)
    (chat : Int) (level skip limit : Nat) :
    (getRangeByLevelAscending sums chat level skip limit).length =
      min limit (getCount sums chat level - skip) := by
  unfold getRangeByLevelAscending getByLevelAscending getCount
  rw [List.length_take, List.length_drop, length_sortBy]

theorem upsertSummary_insert (sums : List SummaryDoc)
    (doc : SummaryUpsert) (now : Nat)
    (h : keyExists sums doc.chatTelegramId doc.level doc.index = false) :
    upsertSummary sums doc now = sums ++ [summaryInsertDoc doc now] := by
  unfold upsertSummary
  unfold keyExists at h
  rw [h]
  simp

theorem getCount_append (sums : List SummaryDoc) (d : SummaryDoc)
    (chat : Int) (L : Nat) :
    getCount (sums ++ [d]) chat L = getCount sums chat L +
      (if d.chatTelegramId == chat && d.level == L then 1 else 0) := by
  unfold getCount
  rw [List.filter_append, List.length_append]
  congr 1
  by_cases hd : (d.chatTelegramId == chat && d.level == L) = true
  · simp [List.filter, hd]
  · simp only [Bool.not_eq_true] at hd
    simp [List.filter, hd]

theorem keyExists_append (sums : List SummaryDoc) (d : SummaryDoc)
    (chat : Int) (level index : Nat) :
    keyExists (sums ++ [d]) chat level index =
      (keyExists sums chat level index || summaryKey chat level index d) :=
  by
  unfold keyExists
  rw [List.any_append]
  simp

/-- The level-0 loop of `ensureSummaries`, run for `count` blocks starting
at index `i` over a store whose level-0 indices are exactly `0, …, i − 1`:
it creates exactly the level-0 summaries `i, …, i + count − 1`, each over
a full block of 200 messages, touching no other chat or level. -/
theorem level0Loop_spec (users : List TelegramUserDoc)
    (msgs : List MessageDoc) (chat : Int)
    (summarize : List String → String → String) (now : Nat) :
    ∀ (count i : Nat) (sums : List SummaryDoc),
    (∀ j, keyExists sums chat 0 j = true ↔ j < i) →
    getCount sums chat 0 = i →
    i + count ≤ countMessages msgs chat / 200 →
    getCount (level0Loop users msgs chat summarize now count i sums).1
        chat 0 = i + count ∧
    (∀ j, keyExists (level0Loop users msgs chat summarize now count i
        sums).1 chat 0 j = true ↔ j < i + count) ∧
    (∀ c' L, c' ≠ chat ∨ L ≠ 0 →
      getCount (level0Loop users msgs chat summarize now count i sums).1
          c' L = getCount sums c' L ∧
      ∀ j, keyExists (level0Loop users msgs chat summarize now count i
          sums).1 c' L j = keyExists sums c' L j) ∧
    (∀ w ∈ (level0Loop users msgs chat summarize now count i sums).2,
      w.level = 0 ∧ w.blockLen = 200) := by
  intro count
  induction count with
  | zero =>
    intro i sums hContig hCount hBound
    refine ⟨?_, ?_, ?_, ?_⟩ <;> simp only [level0Loop]
    · simpa using hCount
    · simpa using hContig
    · exact fun c' L _ => ⟨trivial, fun j => trivial⟩
    · simp
  | succ count ih =>
    intro i sums hContig hCount hBound
    have hlen : (getMessagesAscending users msgs chat (i * 200)
        200).length = 200 := by
      rw [getMessagesAscending_length]
      omega
    have hkey : keyExists sums chat 0 i = false := by
      cases hk : keyExists sums chat 0 i
      · rfl
      · exact absurd ((hContig i).mp hk) (lt_irrefl i)
    simp only [level0Loop]
    rw [hlen, if_neg (by decide : ¬((200 : Nat) = 0))]
    set doc : SummaryUpsert :=
      { chatTelegramId := chat, level := 0, index := i
        summary := summarize ((getMessagesAscending users msgs chat
          (i * 200) 200).enum.map (fun p => level0Label p.1 p.2))
          level0Instruction
        startSentAt := (getMessagesAscending users msgs chat (i * 200)
          200).head?.map (fun m => m.base.sentAt)
        endSentAt := (getMessagesAscending users msgs chat (i * 200)
          200).getLast?.map (fun m => m.base.sentAt) } with hdocdef
    have hkey' : keyExists sums doc.chatTelegramId doc.level doc.index =
      false := hkey
    rw [upsertSummary_insert sums doc now hkey']
    have h1' : ∀ j, keyExists (sums ++ [summaryInsertDoc doc now])
        chat 0 j = true ↔ j < i + 1 := by
      intro j
      rw [keyExists_append]
      have hsk : summaryKey chat 0 j (summaryInsertDoc doc now) =
          (i == j) := by
        simp [summaryKey, summaryInsertDoc, hdocdef]
      rw [hsk, Bool.or_eq_true, hContig j, beq_iff_eq]
      omega
    have h2' : getCount (sums ++ [summaryInsertDoc doc now]) chat 0 =
        i + 1 := by
      rw [getCount_append]
      simp [summaryInsertDoc, hdocdef, hCount]
    obtain ⟨ih1, ih2, ih3, ih4⟩ := ih (i + 1)
      (sums ++ [summaryInsertDoc doc now]) h1' h2' (by omega)
    refine ⟨?_, ?_, ?_, ?_⟩
    · dsimp only
      rw [show i + (count + 1) = (i + 1) + count from by omega]
      exact ih1
    · intro j
      dsimp only
      rw [show i + (count + 1) = (i + 1) + count from by omega]
      exact ih2 j
    · intro c' L hccL
      obtain ⟨hc1, hc2⟩ := ih3 c' L hccL
      refine ⟨?_, ?_⟩
      · dsimp only
        rw [hc1, getCount_append]
        have hcond : (((summaryInsertDoc doc now).chatTelegramId == c')
            && ((summaryInsertDoc doc now).level == L)) = false := by
          rcases hccL with hc | hL
          · simp [summaryInsertDoc, hdocdef, Ne.symm hc]
          · simp [summaryInsertDoc, hdocdef, Ne.symm hL]
        rw [hcond]
        simp
      · intro j
        dsimp only
        rw [hc2 j, keyExists_append]
        have hcond : summaryKey c' L j (summaryInsertDoc doc now) =
            false := by
          rcases hccL with hc | hL
          · simp [summaryKey, summaryInsertDoc, hdocdef, Ne.symm hc]
          · simp [summaryKey, summaryInsertDoc, hdocdef, Ne.symm hL]
        rw [hcond]
        simp
    · intro w hw
      dsimp only at hw
      simp only [List.mem_cons] at hw
      rcases hw with hw | hw
      · subst hw
        simp
      · exact ih4 w hw

/-- The inner loop of the higher-level pass at a fixed `level ≥ 1`, run
for `count` blocks starting at index `i`: it creates exactly the level
summaries `i, …, i + count − 1`, each over a full block of 200 lower
summaries, touching no other chat or level (in particular the level below,
so the due-block bound stays valid throughout). -/
theorem higherLevelInner_spec (chat : Int)
    (summarize : List String → String → String) (now : Nat) (level : Nat)
    (hlev : 1 ≤ level) :
    ∀ (count i : Nat) (sums : List SummaryDoc) (lc : Nat),
    getCount sums chat (level - 1) = lc →
    (∀ j, keyExists sums chat level j = true ↔ j < i) →
    getCount sums chat level = i →
    i + count ≤ lc / 200 →
    getCount (higherLevelInner chat summarize now level count i sums).1
        chat level = i + count ∧
    (∀ j, keyExists (higherLevelInner chat summarize now level count i
        sums).1 chat level j = true ↔ j < i + count) ∧
    (∀ c' L, c' ≠ chat ∨ L ≠ level →
      getCount (higherLevelInner chat summarize now level count i
          sums).1 c' L = getCount sums c' L ∧
      ∀ j, keyExists (higherLevelInner chat summarize now level count i
          sums).1 c' L j = keyExists sums c' L j) ∧
    (∀ w ∈ (higherLevelInner chat summarize now level count i sums).2,
      w.level = level ∧ w.blockLen = 200) := by
  intro count
  induction count with
  | zero =>
    intro i sums lc hlc hContig hCount hBound
    refine ⟨?_, ?_, ?_, ?_⟩ <;> simp only [higherLevelInner]
    · simpa using hCount
    · simpa using hContig
    · exact fun c' L _ => ⟨trivial, fun j => trivial⟩
    · simp
  | succ count ih =>
    intro i sums lc hlc hContig hCount hBound
    have hlen : (getRangeByLevelAscending sums chat (level - 1)
        (i * 200) 200).length = 200 := by
      rw [getRangeByLevelAscending_length, hlc]
      omega
    have hkey : keyExists sums chat level i = false := by
      cases hk : keyExists sums chat level i
      · rfl
      · exact absurd ((hContig i).mp hk) (lt_irrefl i)
    simp only [higherLevelInner]
    rw [hlen, if_neg (by decide : ¬((200 : Nat) = 0))]
    set doc : SummaryUpsert :=
      { chatTelegramId := chat, level := level, index := i
        summary := summarize ((getRangeByLevelAscending sums chat
          (level - 1) (i * 200) 200).enum.map
          (fun p => "Block " ++ toString (p.1 + 1) ++ ": " ++ p.2.summary))
          higherLevelInstruction
        startSentAt := (getRangeByLevelAscending sums chat (level - 1)
          (i * 200) 200).head?.bind (fun s => s.startSentAt)
        endSentAt := (getRangeByLevelAscending sums chat (level - 1)
          (i * 200) 200).getLast?.bind (fun s => s.endSentAt) }
      with hdocdef
    have hkey' : keyExists sums doc.chatTelegramId doc.level doc.index =
      false := hkey
    rw [upsertSummary_insert sums doc now hkey']
    have h1' : ∀ j, keyExists (sums ++ [summaryInsertDoc doc now])
        chat level j = true ↔ j < i + 1 := by
      intro j
      rw [keyExists_append]
      have hsk : summaryKey chat level j (summaryInsertDoc doc now) =
          (i == j) := by
        simp [summaryKey, summaryInsertDoc, hdocdef]
      rw [hsk, Bool.or_eq_true, hContig j, beq_iff_eq]
      omega
    have h2' : getCount (sums ++ [summaryInsertDoc doc now]) chat
        level = i + 1 := by
      rw [getCount_append]
      simp [summaryInsertDoc, hdocdef, hCount]
    have hlc' : getCount (sums ++ [summaryInsertDoc doc now]) chat
        (level - 1) = lc := by
      rw [getCount_append]
      have hcond : (((summaryInsertDoc doc now).chatTelegramId == chat)
          && ((summaryInsertDoc doc now).level == (level - 1))) =
          false := by
        have hne : level ≠ level - 1 := by omega
        simp [summaryInsertDoc, hdocdef, hne]
      rw [hcond]
      simpa using hlc
    obtain ⟨ih1, ih2, ih3, ih4⟩ := ih (i + 1)
      (sums ++ [summaryInsertDoc doc now]) lc hlc' h1' h2' (by omega)
    refine ⟨?_, ?_, ?_, ?_⟩
    · dsimp only
      rw [show i + (count + 1) = (i + 1) + count from by omega]
      exact ih1
    · intro j
      dsimp only
      rw [show i + (count + 1) = (i + 1) + count from by omega]
      exact ih2 j
    · intro c' L hccL
      obtain ⟨hc1, hc2⟩ := ih3 c' L hccL
      refine ⟨?_, ?_⟩
      · dsimp only
        rw [hc1, getCount_append]
        have hcond : (((summaryInsertDoc doc now).chatTelegramId == c')
            && ((summaryInsertDoc doc now).level == L)) = false := by
          rcases hccL with hc | hL
          · simp [summaryInsertDoc, hdocdef, Ne.symm hc]
          · simp [summaryInsertDoc, hdocdef, Ne.symm hL]
        rw [hcond]
        simp
      · intro j
        dsimp only
        rw [hc2 j, keyExists_append]
        have hcond : summaryKey c' L j (summaryInsertDoc doc now) =
            false := by
          rcases hccL with hc | hL
          · simp [summaryKey, summaryInsertDoc, hdocdef, Ne.symm hc]
          · simp [summaryKey, summaryInsertDoc, hdocdef, Ne.symm hL]
        rw [hcond]
        simp
    · intro w hw
      dsimp only at hw
      simp only [List.mem_cons] at hw
      rcases hw with hw | hw
      · subst hw
        simp
      · exact ih4 w hw

/-- The level loop of `ensureSummaries` starting at `level ≥ 1` over a
valid store with enough fuel (one unit more than the count at the level
below, which always covers the breaking iteration because counts strictly
decrease level to level): afterwards every level from `level` up holds
exactly `floor(count below / 200)` summaries, lower levels and other chats
are untouched, every level stays contiguous, and every block written was
full. -/
theorem higherLevelLoop_spec (chat : Int)
    (summarize : List String → String → String) (now : Nat) :
    ∀ (fuel level : Nat) (sums : List SummaryDoc),
    1 ≤ level →
    getCount sums chat (level - 1) + 1 ≤ fuel →
    (∀ L, ContigAt sums chat L) →
    (∀ L, level ≤ L →
      getCount sums chat L ≤ getCount sums chat (L - 1) / 200) →
    (∀ L, level ≤ L →
      getCount (higherLevelLoop chat summarize now fuel level sums).1
          chat L =
        getCount (higherLevelLoop chat summarize now fuel level sums).1
          chat (L - 1) / 200) ∧
    (∀ c' L, L < level ∨ c' ≠ chat →
      getCount (higherLevelLoop chat summarize now fuel level sums).1
          c' L = getCount sums c' L) ∧
    (∀ L, ContigAt
      (higherLevelLoop chat summarize now fuel level sums).1 chat L) ∧
    (∀ w ∈ (higherLevelLoop chat summarize now fuel level sums).2,
      w.blockLen = 200) := by
  intro fuel
  induction fuel with
  | zero =>
    intro level sums hlev hfuel hContig hMono
    omega
  | succ fuel ih =>
    intro level sums hlev hfuel hContig hMono
    simp only [higherLevelLoop]
    by_cases hlow : getCount sums chat (level - 1) < 200
    · rw [if_pos hlow]
      have hzero : ∀ d, getCount sums chat (level + d) = 0 := by
        intro d
        induction d with
        | zero =>
          simp only [Nat.add_zero]
          have h1 := hMono level le_rfl
          omega
        | succ d ihd =>
          have h1 := hMono (level + (d + 1)) (by omega)
          have h2 : level + (d + 1) - 1 = level + d := by omega
          rw [h2] at h1
          omega
      refine ⟨?_, fun c' L _ => rfl, hContig, by simp⟩
      intro L hL
      obtain ⟨d, rfl⟩ := Nat.exists_eq_add_of_le hL
      cases d with
      | zero =>
        have h0 := hzero 0
        simp only [Nat.add_zero] at h0 ⊢
        rw [h0]
        omega
      | succ d =>
        have h1 := hzero (d + 1)
        have h2 := hzero d
        have h3 : level + (d + 1) - 1 = level + d := by omega
        rw [h1, h3, h2]
    · rw [if_neg hlow]
      push_neg at hlow
      have hle : getCount sums chat level ≤
          getCount sums chat (level - 1) / 200 := hMono level le_rfl
      obtain ⟨in1, in2, in3, in4⟩ := higherLevelInner_spec chat
        summarize now level hlev
        (getCount sums chat (level - 1) / 200 - getCount sums chat level)
        (getCount sums chat level) sums
        (getCount sums chat (level - 1)) rfl (hContig level) rfl
        (by omega)
      set sums2 := (higherLevelInner chat summarize now level
        (getCount sums chat (level - 1) / 200 - getCount sums chat level)
        (getCount sums chat level) sums).1 with hsums2
      have hcount2 : getCount sums2 chat level =
          getCount sums chat (level - 1) / 200 := by
        omega
      have hframe2 : ∀ c' L, c' ≠ chat ∨ L ≠ level →
          getCount sums2 c' L = getCount sums c' L :=
        fun c' L h => (in3 c' L h).1
      have hlower2 : getCount sums2 chat level =
          getCount sums2 chat ((level + 1) - 1) := rfl
      have hContig2 : ∀ L, ContigAt sums2 chat L := by
        intro L
        by_cases hL : L = level
        · subst hL
          intro j
          rw [hcount2]
          rw [in2 j]
          omega
        · intro j
          have hk := (in3 chat L (Or.inr hL)).2 j
          rw [hk, hframe2 chat L (Or.inr hL)]
          exact hContig L j
      have hMono2 : ∀ L, level + 1 ≤ L →
          getCount sums2 chat L ≤ getCount sums2 chat (L - 1) / 200 := by
        intro L hL
        by_cases hL1 : L = level + 1
        · subst hL1
          have hup : getCount sums2 chat (level + 1) =
              getCount sums chat (level + 1) :=
            hframe2 chat (level + 1) (Or.inr (by omega))
          have hdn : level + 1 - 1 = level := by omega
          rw [hup, hdn, hcount2]
          calc getCount sums chat (level + 1) ≤
              getCount sums chat level / 200 := by
                have := hMono (level + 1) (by omega)
                simpa using this
            _ ≤ (getCount sums chat (level - 1) / 200) / 200 :=
                Nat.div_le_div_right hle
        · have hgt : level + 1 < L := by omega
          rw [hframe2 chat L (Or.inr (by omega)),
            hframe2 chat (L - 1) (Or.inr (by omega))]
          exact hMono L (by omega)
      have hfuel2 : getCount sums2 chat ((level + 1) - 1) + 1 ≤ fuel := by
        rw [← hlower2, hcount2]
        have hdivlt : getCount sums chat (level - 1) / 200 <
            getCount sums chat (level - 1) :=
          Nat.div_lt_self (by omega) (by omega)
        omega
      obtain ⟨r1, r2, r3, r4⟩ := ih (level + 1) sums2 (by omega) hfuel2
        hContig2 hMono2
      refine ⟨?_, ?_, ?_, ?_⟩
      · intro L hL
        dsimp only
        by_cases hL1 : L = level
        · rw [hL1]
          rw [r2 chat level (Or.inl (by omega)),
            r2 chat (level - 1) (Or.inl (by omega))]
          rw [hcount2, hframe2 chat (level - 1) (Or.inr (by omega))]
        · exact r1 L (by omega)
      · intro c' L hcl
        dsimp only
        rcases hcl with hL | hc
        · rw [r2 c' L (Or.inl (by omega)),
            hframe2 c' L (Or.inr (by omega))]
        · rw [r2 c' L (Or.inr hc), hframe2 c' L (Or.inl hc)]
      · intro L
        dsimp only
        exact r3 L
      · intro w hw
        dsimp only at hw
        rw [List.mem_append] at hw
        rcases hw with hw | hw
        · exact (in4 w hw).2
        · exact r4 w hw

/-- When every level from `level` up is already caught up, the level loop
performs no write and returns the store unchanged. -/
theorem higherLevelLoop_noop (chat : Int)
    (summarize : List String → String → String) (now : Nat) :
    ∀ (fuel level : Nat) (sums : List SummaryDoc),
    1 ≤ level →
    getCount sums chat (level - 1) + 1 ≤ fuel →
    (∀ L, level ≤ L →
      getCount sums chat L = getCount sums chat (L - 1) / 200) →
    higherLevelLoop chat summarize now fuel level sums = (sums, []) := by
  intro fuel
  induction fuel with
  | zero =>
    intro level sums hlev hfuel hdone
    omega
  | succ fuel ih =>
    intro level sums hlev hfuel hdone
    simp only [higherLevelLoop]
    by_cases hlow : getCount sums chat (level - 1) < 200
    · rw [if_pos hlow]
    · rw [if_neg hlow]
      push_neg at hlow
      have h0 : getCount sums chat (level - 1) / 200 -
          getCount sums chat level = 0 := by
        have := hdone level le_rfl
        omega
      rw [h0]
      simp only [higherLevelInner]
      have hrec := ih (level + 1) sums (by omega)
        (by
          have := hdone level le_rfl
          have hdivlt : getCount sums chat (level - 1) / 200 <
              getCount sums chat (level - 1) :=
            Nat.div_lt_self (by omega) (by omega)
          have hl1 : (level + 1) - 1 = level := by omega
          rw [hl1]
          omega)
        (fun L hL => hdone L (by omega))
      rw [hrec]
      rfl

/-- C1: from any state the engine can have produced, one completed
`ensureSummaries` run leaves exactly `floor(total/200)` level-0 summaries
and, for every level `L ≥ 1`, exactly `floor(count at L−1 / 200)`
summaries; every level is contiguous from index 0; and every block
written covered exactly 200 underlying entries (no partial block is ever
summarized). -/
theorem ensureSummaries_spec (users : List TelegramUserDoc)
    (msgs : List MessageDoc) (chat : Int)
    (summarize : List String → String → String) (now : Nat)
    (sums : List SummaryDoc) (hvalid : ValidState msgs sums chat) :
    getCount (ensureSummaries users msgs chat summarize now sums).1 chat
      0 = countMessages msgs chat / 200 ∧
    (∀ L, 1 ≤ L →
      getCount (ensureSummaries users msgs chat summarize now sums).1
          chat L =
        getCount (ensureSummaries users msgs chat summarize now sums).1
          chat (L - 1) / 200) ∧
    (∀ L, ContigAt
      (ensureSummaries users msgs chat summarize now sums).1 chat L) ∧
    (∀ w ∈ (ensureSummaries users msgs chat summarize now sums).2,
      w.blockLen = 200) := by
  obtain ⟨hContigAll, hBound0, hMono⟩ := hvalid
  simp only [ensureSummaries]
  obtain ⟨l1, l2, l3, l4⟩ := level0Loop_spec users msgs chat summarize
    now (countMessages msgs chat / 200 - getCount sums chat 0)
    (getCount sums chat 0) sums (hContigAll 0) rfl (by omega)
  set sums1 := (level0Loop users msgs chat summarize now
    (countMessages msgs chat / 200 - getCount sums chat 0)
    (getCount sums chat 0) sums).1 with hsums1
  have hc1 : getCount sums1 chat 0 = countMessages msgs chat / 200 := by
    omega
  have hContig1 : ∀ L, ContigAt sums1 chat L := by
    intro L
    by_cases hL : L = 0
    · subst hL
      intro j
      rw [hc1, l2 j]
      omega
    · intro j
      rw [(l3 chat L (Or.inr hL)).2 j, (l3 chat L (Or.inr hL)).1]
      exact hContigAll L j
  have hMono1 : ∀ L, 1 ≤ L →
      getCount sums1 chat L ≤ getCount sums1 chat (L - 1) / 200 := by
    intro L hL
    by_cases hL1 : L = 1
    · rw [hL1]
      rw [(l3 chat 1 (Or.inr (by omega))).1]
      have h01 : (1 : Nat) - 1 = 0 := rfl
      rw [h01, hc1]
      calc getCount sums chat 1 ≤ getCount sums chat 0 / 200 := by
            have := hMono 0
            simpa using this
        _ ≤ (countMessages msgs chat / 200) / 200 :=
            Nat.div_le_div_right (by omega)
    · rw [(l3 chat L (Or.inr (by omega))).1,
        (l3 chat (L - 1) (Or.inr (by omega))).1]
      have := hMono (L - 1)
      have hLL : L - 1 + 1 = L := by omega
      rw [hLL] at this
      exact this
  obtain ⟨r1, r2, r3, r4⟩ := higherLevelLoop_spec chat summarize now
    (getCount sums1 chat 0 + 1) 1 sums1 (by omega) (Nat.le_refl _)
    hContig1 hMono1
  refine ⟨?_, ?_, ?_, ?_⟩
  · rw [r2 chat 0 (Or.inl (by omega))]
    exact hc1
  · intro L hL
    exact r1 L hL
  · intro L
    exact r3 L
  · intro w hw
    rw [List.mem_append] at hw
    rcases hw with hw | hw
    · exact (l4 w hw).2
    · exact r4 w hw

/-- C2: an `ensureSummaries` run on the state a completed run just
produced (no new messages in between) performs no store write at any
level — the loops return the store unchanged with an empty write log —
and the summary indices of every level remain contiguous from 0. -/
theorem ensureSummaries_idempotent (users : List TelegramUserDoc)
    (msgs : List MessageDoc) (chat : Int)
    (summarize : List String → String → String) (now now2 : Nat)
    (sums : List SummaryDoc) (hvalid : ValidState msgs sums chat) :
    ensureSummaries users msgs chat summarize now2
        (ensureSummaries users msgs chat summarize now sums).1 =
      ((ensureSummaries users msgs chat summarize now sums).1, []) ∧
    (∀ L, ContigAt
      (ensureSummaries users msgs chat summarize now sums).1 chat L) := by
  obtain ⟨hc0, hrel, hcontig, htrace⟩ :=
    ensureSummaries_spec users msgs chat summarize now sums hvalid
  set sums1 := (ensureSummaries users msgs chat summarize now sums).1
    with hsums1
  refine ⟨?_, hcontig⟩
  simp only [ensureSummaries]
  have hz : countMessages msgs chat / 200 - getCount sums1 chat 0 = 0 :=
    by omega
  rw [hz]
  simp only [level0Loop]
  have hnoop := higherLevelLoop_noop chat summarize now2
    (getCount sums1 chat 0 + 1) 1 sums1 (by omega) (Nat.le_refl _)
    (fun L hL => hrel L hL)
  rw [hnoop]
  rfl

set_option maxRecDepth 100000 in
/-- C1 witness: a fresh 400-message chat with an empty summary store is a
valid state; the completed run yields `400 / 200 = 2` level-0 summaries,
the per-level count law at every higher level, and only full blocks in
the write log (which holds exactly the two level-0 writes). -/
theorem ensureSummaries_spec_witness :
    ValidState c7AlignedMsgs ([] : List SummaryDoc) 1 ∧
    getCount (ensureSummaries [] c7AlignedMsgs 1 (fun _ _ => "s") 0
      []).1 1 0 = countMessages c7AlignedMsgs 1 / 200 ∧
    (∀ w ∈ (ensureSummaries [] c7AlignedMsgs 1 (fun _ _ => "s") 0 []).2,
      w.blockLen = 200) ∧
    (ensureSummaries [] c7AlignedMsgs 1 (fun _ _ => "s") 0 []).2.length =
      2 := by
  have h := ensureSummaries_spec [] c7AlignedMsgs 1 (fun _ _ => "s") 0 []
    (validState_empty _ _)
  exact ⟨validState_empty _ _, h.1, h.2.2.2, by rfl⟩

/-- C2 witness: re-running the engine right after the completed run on
the 400-message chat returns the store unchanged with an empty write
log. -/
theorem ensureSummaries_idempotent_witness :
    ValidState c7AlignedMsgs ([] : List SummaryDoc) 1 ∧
    ensureSummaries [] c7AlignedMsgs 1 (fun _ _ => "s") 7
        (ensureSummaries [] c7AlignedMsgs 1 (fun _ _ => "s") 0 []).1 =
      ((ensureSummaries [] c7AlignedMsgs 1 (fun _ _ => "s") 0 []).1,
        []) :=
  ⟨validState_empty _ _,
   (ensureSummaries_idempotent [] c7AlignedMsgs 1 (fun _ _ => "s") 0 7
     [] (validState_empty _ _)).1⟩

end Groknul
